import Mathlib

/-!
Verification of the `kuva` example-data generator (`examples/data/generate.py`)
against its specification.

The Python program is shallowly embedded:

* numpy arrays become total functions `ℕ → ℚ` (or explicit lists);
* every random draw becomes an explicit parameter: a draw from
  `np.random.normal(mu, sigma)` is embedded as `mu + sigma * z` with `z` an
  arbitrary rational standing for the standard-normal variate, and draws with
  bounded support (`uniform`, `integers`, `randint`, clipped values) carry
  their support as hypotheses of the theorems;
* Python floats are modelled as exact rationals; `round(x, n)` becomes
  rounding to the nearest multiple of `10 ^ (-n)` (the ties-to-even versus
  half-up difference affects only exact ties, on which no claim depends);
* file writes are modelled as appends to an explicit file-content state, and
  the possibility of a write failure as an explicit writability predicate
  threaded through the run (Python raises out of `open`/`write`; the script
  installs no handler).
-/

namespace Kuva

/-- A scalar cell value as produced by the generator: Python `str`, `int`
or `float` (modelled as `ℚ`). -/
inductive Value where
  | s : String → Value
  | i : ℤ → Value
  | q : ℚ → Value
deriving DecidableEq

/-- Up to `fuel` decimal digits of the fractional part of a rational in
`[0, 1)`. -/
def fracDigits : ℕ → ℚ → String
  | 0, _ => ""
  | fuel + 1, x =>
    if x = 0 then ""
    else
      let d : ℤ := ⌊x * 10⌋
      toString d ++ fracDigits fuel (x * 10 - (d : ℚ))

/-- Decimal rendering of the rational model of a Python float.  The exact
digit strings of CPython float `repr` are a floating-point artefact and are
not modelled; no claim depends on the rendered digits. -/
def ratStr (x : ℚ) : String :=
  let a := |x|
  let sign := if x < 0 then "-" else ""
  let frac := a - (⌊a⌋ : ℚ)
  sign ++ toString (⌊a⌋ : ℤ) ++ "." ++ (if frac = 0 then "0" else fracDigits 30 frac)

/-- Fuel-bounded normalisation of a positive rational into mantissa/exponent
form `m * 10 ^ e` with `m ∈ [1, 10)`. -/
def sciNorm : ℕ → ℚ → ℤ → ℚ × ℤ
  | 0, m, e => (m, e)
  | fuel + 1, m, e =>
    if 10 ≤ m then sciNorm fuel (m / 10) (e + 1)
    else if m < 1 then sciNorm fuel (m * 10) (e - 1)
    else (m, e)

/-- Model of the Python format `f"{x:.6e}"` on the rational model (scientific
notation with six fractional digits); exact CPython float digits are not
modelled and no claim depends on them. -/
def sci6 (x : ℚ) : String :=
  if x = 0 then "0.000000e+00"
  else
    let sign := if x < 0 then "-" else ""
    let me := sciNorm 700 |x| 0
    let scaled : ℤ := round (me.1 * 10 ^ 6)
    let se : ℤ × ℤ := if 10 ^ 7 ≤ scaled then (scaled / 10, me.2 + 1) else (scaled, me.2)
    let digits := toString se.1
    let esign := if se.2 < 0 then "-" else "+"
    let eabs : ℤ := |se.2|
    let epad := if eabs < 10 then "0" ++ toString eabs else toString eabs
    sign ++ digits.take 1 ++ "." ++ digits.drop 1 ++ "e" ++ esign ++ epad

/-- Model of Python `str` on the cell values used by the generator. -/
def Value.render : Value → String
  | .s x => x
  | .i n => toString n
  | .q x => ratStr x

/-- Model of Python `round(x, n)` on the rational model: nearest multiple of
`10 ^ (-n)`. -/
def pyRound (n : ℕ) (x : ℚ) : ℚ := ((round (x * 10 ^ n) : ℤ) : ℚ) / 10 ^ n

/-- The contents of one opened output file: the bytes written so far. -/
structure FileState where
  content : String
deriving DecidableEq

/-- Model of Python `f.write`. -/
def fwrite (f : FileState) (s : String) : FileState := ⟨f.content ++ s⟩

/-- Python `"\t".join cells`. -/
def tabJoin (cells : List String) : String := String.intercalate "\t" cells

/-- `write_tsv` (generate.py lines 14-20): open the file, write the
tab-joined header line, then one tab-joined stringified line per row, and
return `len(rows)`.  Stringification `str(v)` is `Value.render`. -/
def write_tsv (header : List String) (rows : List (List Value)) : FileState × ℕ :=
  let f := fwrite ⟨""⟩ (tabJoin header ++ "\n")
  let f := rows.foldl (fun f row => fwrite f (tabJoin (row.map Value.render) ++ "\n")) f
  (f, rows.length)

/-- The line sequence a TSV file is expected to consist of: the tab-joined
header followed by the tab-joined stringified rows, in order. -/
def tsvLines (header : List String) (rows : List (List Value)) : List String :=
  tabJoin header :: rows.map (fun row => tabJoin (row.map Value.render))

/-- Serialise a list of lines, each terminated by a newline. -/
def unlines : List String → String
  | [] => ""
  | l :: ls => l ++ "\n" ++ unlines ls

theorem write_tsv_foldl (rows : List (List Value)) (f : FileState) :
    (rows.foldl (fun f row => fwrite f (tabJoin (row.map Value.render) ++ "\n")) f).content
      = f.content ++ unlines (rows.map (fun row => tabJoin (row.map Value.render))) := by
  induction rows generalizing f with
  | nil => simp [unlines]
  | cons r rs ih =>
    rw [List.foldl_cons, ih]
    simp [fwrite, unlines, String.append_assoc]

/-- The file written by `write_tsv` is exactly the expected line sequence,
and the returned count is the number of rows. -/
theorem write_tsv_content (header : List String) (rows : List (List Value)) :
    (write_tsv header rows).1.content = unlines (tsvLines header rows) ∧
      (write_tsv header rows).2 = rows.length := by
  refine ⟨?_, rfl⟩
  simp only [write_tsv]
  rw [write_tsv_foldl]
  simp [fwrite, tsvLines, unlines, String.append_assoc]

/-- C1: for every call to `write_tsv` with a filename, a header and an
ordered sequence of rows, the produced file's first line is the tab-joined
header, each subsequent line is the tab-joined stringification of one row,
the rows appear in the given order, and the returned value equals the number
of rows written. -/
theorem C1_write_tsv_correct (header : List String) (rows : List (List Value)) :
    (write_tsv header rows).1.content
        = unlines (tabJoin header :: rows.map (fun row => tabJoin (row.map Value.render))) ∧
      (write_tsv header rows).2 = rows.length :=
  write_tsv_content header rows

/-! ## gene_stats.tsv: the adjusted p-value pipeline (generate.py lines 170-177)

```python
ranks = np.argsort(pvalue) + 1  # rank 1 = smallest
padj = np.minimum(pvalue * n_genes / ranks, 1.0)
padj_ordered = np.empty(n_genes)
for rank_pos, gene_pos in enumerate(np.argsort(pvalue)):
    padj_ordered[gene_pos] = padj[rank_pos]
padj = padj_ordered
```
-/

/-- Insert index `i` into an index list sorted by ascending value, ties
broken by ascending index. -/
def argInsert [LinearOrder α] (p : ℕ → α) (i : ℕ) : List ℕ → List ℕ
  | [] => [i]
  | j :: js =>
    if p i < p j ∨ (p i = p j ∧ i ≤ j) then i :: j :: js else j :: argInsert p i js

/-- Sort an index list by ascending value (insertion sort). -/
def argsortAux [LinearOrder α] (p : ℕ → α) : List ℕ → List ℕ
  | [] => []
  | i :: is => argInsert p i (argsortAux p is)

/-- `np.argsort(pvalue)`: the indices of the array in ascending value order.
Ties are broken by index; numpy's sort order coincides on distinct values,
and the p-values drawn by the generator are distinct with probability one. -/
def argsort [LinearOrder α] (d : α) (p : List α) : List ℕ :=
  argsortAux (fun i => p.getD i d) (List.range p.length)

/-- `ranks = np.argsort(pvalue) + 1` (line 171): the argsort vector plus one
(which, as the claims note, is not the same as the rank vector). -/
def ranks (p : List ℚ) : List ℕ := (argsort 0 p).map (· + 1)

/-- `padj = np.minimum(pvalue * n_genes / ranks, 1.0)` (line 172),
elementwise over the array index. -/
def padjRaw (p : List ℚ) : List ℚ :=
  (List.range p.length).map
    (fun i => min (p.getD i 0 * (p.length : ℚ) / (((ranks p).getD i 1 : ℕ) : ℚ)) 1)

/-- Python `enumerate`, starting from index `k`. -/
def pyEnumFrom (k : ℕ) : List α → List (ℕ × α)
  | [] => []
  | a :: as => (k, a) :: pyEnumFrom (k + 1) as

/-- Python `enumerate`. -/
def pyEnum (l : List α) : List (ℕ × α) := pyEnumFrom 0 l

/-- Lines 174-177: `padj_ordered[gene_pos] = padj[rank_pos]` over
`enumerate(np.argsort(pvalue))`.  `np.empty` is modelled as a zero-filled
array; since the argsort list is a permutation of the index range, every slot
is assigned by the loop. -/
def padj_ordered (p : List ℚ) : List ℚ :=
  (pyEnum (argsort 0 p)).foldl (fun acc rg => acc.set rg.2 ((padjRaw p).getD rg.1 0))
    (List.replicate p.length 0)

/-- Position of the first occurrence of `g` in a list of indices. -/
def posIn (g : ℕ) : List ℕ → ℕ
  | [] => 0
  | j :: js => if j = g then 0 else posIn g js + 1

/-- The 1-based rank of row `g`'s p-value in the ascending sort. -/
def rankOf (p : List ℚ) (g : ℕ) : ℕ := posIn g (argsort 0 p) + 1

/-- The adjustment the specification describes (for comparison with
`padj_ordered`): each row's own raw p-value scaled by `n / rank` and capped
at 1, where `rank` is the 1-based rank of that row's own p-value in the
ascending sort. -/
def padj_claimed (p : List ℚ) : List ℚ :=
  (List.range p.length).map
    (fun g => min (p.getD g 0 * (p.length : ℚ) / ((rankOf p g : ℕ) : ℚ)) 1)

/-- The padj column read in ascending-raw-p order (ties broken by ascending
rank): entry `r` is the padj of the gene holding the `r`-th smallest raw
p-value. -/
def padjSortedByP (p : List ℚ) : List ℚ :=
  (argsort 0 p).map (fun g => (padj_ordered p).getD g 0)

theorem padj_ordered_eval : padj_ordered [(3 : ℚ)/10, 1/10, 2/10] = [3/5, 9/20, 1/10] := by
  norm_num [padj_ordered, padjRaw, ranks, argsort, argsortAux, argInsert,
    pyEnum, pyEnumFrom, List.range_succ, min_def]
  rfl

theorem padj_claimed_eval : padj_claimed [(3 : ℚ)/10, 1/10, 2/10] = [3/10, 3/10, 3/10] := by
  norm_num [padj_claimed, rankOf, posIn, argsort, argsortAux, argInsert,
    List.range_succ, min_def]

theorem argInsert_perm [LinearOrder α] (p : ℕ → α) (i : ℕ) (l : List ℕ) :
    List.Perm (argInsert p i l) (i :: l) := by
  induction l with
  | nil => simp [argInsert]
  | cons j js ih =>
    by_cases h : p i < p j ∨ (p i = p j ∧ i ≤ j)
    · simp [argInsert, h]
    · simp only [argInsert, if_neg h]
      exact ((ih.cons j).trans (List.Perm.swap i j js))

theorem argsortAux_perm [LinearOrder α] (p : ℕ → α) (l : List ℕ) :
    List.Perm (argsortAux p l) l := by
  induction l with
  | nil => simp [argsortAux]
  | cons i is ih => exact (argInsert_perm p i (argsortAux p is)).trans (ih.cons i)

theorem argsort_perm [LinearOrder α] (d : α) (p : List α) :
    List.Perm (argsort d p) (List.range p.length) :=
  argsortAux_perm _ _

theorem posIn_lt_length {g : ℕ} {l : List ℕ} (h : g ∈ l) : posIn g l < l.length := by
  induction l with
  | nil => cases h
  | cons j js ih =>
    by_cases hj : j = g
    · simp [posIn, hj]
    · have : g ∈ js := by
        rcases List.mem_cons.mp h with h' | h'
        · exact absurd h'.symm hj
        · exact h'
      simp only [posIn, if_neg hj, List.length_cons]
      exact Nat.succ_lt_succ (ih this)

theorem map_range_getD (f : ℕ → ℚ) {n g : ℕ} (h : g < n) :
    ((List.range n).map f).getD g 0 = f g := by
  rw [List.getD_eq_getElem?_getD]
  simp [List.getElem?_map, List.getElem?_range, h]

/-- Supporting fact for C5: the adjustment as the claim describes it (each
row's own raw p-value scaled by `n / rank`, capped at 1) does satisfy
`raw ≤ padj ≤ 1` on every row whenever the raw values are probabilities.
The generator's actual pipeline does not (see the C5 theorem). -/
theorem padj_claimed_ge_raw (p : List ℚ) (hp : ∀ x ∈ p, 0 ≤ x ∧ x ≤ 1)
    {g : ℕ} (hg : g < p.length) :
    p.getD g 0 ≤ (padj_claimed p).getD g 0 ∧ (padj_claimed p).getD g 0 ≤ 1 := by
  have hmem : g ∈ argsort 0 p := by
    rw [(argsort_perm 0 p).mem_iff, List.mem_range]
    exact hg
  have hrank_le : rankOf p g ≤ p.length := by
    have h1 : posIn g (argsort 0 p) < (argsort 0 p).length := posIn_lt_length hmem
    have h2 : (argsort 0 p).length = p.length := (argsort_perm 0 p).length_eq.trans
      (List.length_range _)
    rw [rankOf]
    omega
  have hrank_pos : (0 : ℚ) < (rankOf p g : ℚ) := by
    have : 0 < rankOf p g := Nat.succ_pos _
    exact_mod_cast this
  have hpg : 0 ≤ p.getD g 0 ∧ p.getD g 0 ≤ 1 := by
    refine hp _ ?_
    have := List.getD_eq_getElem?_getD p g 0
    have hlt : g < p.length := hg
    rw [List.getD_eq_getElem?_getD, List.getElem?_eq_getElem hlt]
    exact List.getElem_mem hlt
  rw [padj_claimed, map_range_getD _ hg]
  constructor
  · refine le_min ?_ hpg.2
    rw [le_div_iff₀ hrank_pos]
    calc p.getD g 0 * (rankOf p g : ℚ) ≤ p.getD g 0 * (p.length : ℚ) := by
          exact mul_le_mul_of_nonneg_left (by exact_mod_cast hrank_le) hpg.1
      _ = p.getD g 0 * (p.length : ℚ) := rfl
  · exact min_le_right _ _

/-- C4 (code bug): at `pvalue = [0.3, 0.1, 0.2]` the padj pipeline of
generate.py lines 170-177 yields `[0.6, 0.45, 0.1]`, while the computation
the claim describes — each output row's padj equal to `min(raw * n / rank, 1)`
for that same row's own raw p-value and its 1-based ascending rank — yields
`[0.3, 0.3, 0.3]`.  `ranks = np.argsort(pvalue) + 1` is the argsort vector
plus one, not the rank vector the comment on line 171 announces. -/
theorem C4_padj_pipeline_deviates :
    padj_ordered [(3 : ℚ)/10, 1/10, 2/10] = [3/5, 9/20, 1/10] ∧
      padj_claimed [(3 : ℚ)/10, 1/10, 2/10] = [3/10, 3/10, 3/10] ∧
      padj_ordered [(3 : ℚ)/10, 1/10, 2/10] ≠ padj_claimed [(3 : ℚ)/10, 1/10, 2/10] := by
  refine ⟨padj_ordered_eval, padj_claimed_eval, ?_⟩
  rw [padj_ordered_eval, padj_claimed_eval]
  intro h
  injection h with h1 _
  norm_num at h1

/-- C5 (code bug): at `pvalue = [0.3, 0.1, 0.2]` the generator's padj for
output row 2 is 0.1, strictly below that row's raw p-value 0.2 — the claimed
`padj ≥ pvalue` fails on the code (the `≤ 1` half does hold, and the
adjustment as claimed satisfies both halves: `padj_claimed_ge_raw`). -/
theorem C5_padj_below_its_raw :
    (padj_ordered [(3 : ℚ)/10, 1/10, 2/10]).getD 2 0
      < ([(3 : ℚ)/10, 1/10, 2/10] : List ℚ).getD 2 0 := by
  rw [padj_ordered_eval]
  norm_num

/-- C6 (code bug): at `pvalue = [0.3, 0.1, 0.2]`, reading the generator's
padj column in ascending-raw-p order gives `(0.45, 0.1, 0.6)`, which is not
monotonically non-decreasing (0.45 > 0.1). -/
theorem C6_padj_sorted_not_monotone :
    padjSortedByP [(3 : ℚ)/10, 1/10, 2/10] = [9/20, 1/10, 3/5] ∧
      ¬ List.Chain' (· ≤ ·) (padjSortedByP [(3 : ℚ)/10, 1/10, 2/10]) := by
  have h : padjSortedByP [(3 : ℚ)/10, 1/10, 2/10] = [9/20, 1/10, 3/5] := by
    rw [padjSortedByP]
    have ha : argsort 0 [(3 : ℚ)/10, 1/10, 2/10] = [1, 2, 0] := by
      norm_num [argsort, argsortAux, argInsert, List.range_succ]
    rw [ha, padj_ordered_eval]
    norm_num
  refine ⟨h, ?_⟩
  rw [h]
  simp only [List.chain'_cons, List.chain'_singleton, and_true]
  intro hc
  have := hc.1
  norm_num at this

/-! ## candlestick.tsv dates (generate.py lines 353-374)

`datetime.date` is modelled as the number of days since 2023-01-02 (the
hard-coded start date, which falls on a Monday), so `d.weekday()` is `d % 7`
with 0 = Monday and `d += timedelta(days=k)` is `d + k`. -/

/-- The `while d.weekday() >= 5: d += timedelta(days=1)` loop of
`next_weekday`. -/
def skipWeekend (d : ℕ) : ℕ :=
  if d % 7 ≥ 5 then skipWeekend (d + 1) else d
termination_by (7 - d % 7) % 7
decreasing_by simp_wf; omega

/-- `next_weekday(d, delta=1)` (lines 355-359): add one day, then skip
forward day by day while the date falls on a weekend. -/
def next_weekday (d : ℕ) : ℕ := skipWeekend (d + 1)

/-- The dates of the candlestick rows (lines 362-374): row `i` carries
`current_date`, which starts at day 0 (2023-01-02) and is advanced by
`next_weekday` between rows. -/
def candleDates : ℕ → ℕ → List ℕ
  | 0, _ => []
  | n + 1, d => d :: candleDates n (next_weekday d)

theorem skipWeekend_spec (d : ℕ) : (skipWeekend d) % 7 < 5 ∧ d ≤ skipWeekend d := by
  induction d using skipWeekend.induct with
  | case1 d h ih =>
    rw [skipWeekend, if_pos h]
    exact ⟨ih.1, Nat.le_trans (Nat.le_succ d) ih.2⟩
  | case2 d h =>
    rw [skipWeekend, if_neg h]
    omega

theorem next_weekday_gt (d : ℕ) : d < next_weekday d :=
  Nat.lt_of_lt_of_le (Nat.lt_succ_self d) (skipWeekend_spec (d + 1)).2

theorem next_weekday_weekday (d : ℕ) : (next_weekday d) % 7 < 5 :=
  (skipWeekend_spec (d + 1)).1

theorem candleDates_weekday (n d : ℕ) (hd : d % 7 < 5) :
    ∀ x ∈ candleDates n d, x % 7 < 5 := by
  induction n generalizing d with
  | zero => intro x hx; simp [candleDates] at hx
  | succ n ih =>
    intro x hx
    rw [candleDates] at hx
    rcases List.mem_cons.mp hx with h | h
    · exact h ▸ hd
    · exact ih (next_weekday d) (next_weekday_weekday d) x h

theorem candleDates_sorted (n d : ℕ) : List.Chain' (· < ·) (candleDates n d) := by
  induction n generalizing d with
  | zero => simp [candleDates]
  | succ n ih =>
    rw [candleDates, List.chain'_cons']
    refine ⟨?_, ih (next_weekday d)⟩
    intro y hy
    cases n with
    | zero => simp [candleDates] at hy
    | succ m =>
      rw [candleDates, List.head?_cons, Option.mem_some_iff] at hy
      exact hy ▸ next_weekday_gt d

/-- C8: every date emitted into candlestick.tsv falls on a weekday
(Monday-Friday), and consecutive rows carry strictly increasing dates.  Dates
are day counts from the start date 2023-01-02, a Monday, so a weekday is
`d % 7 < 5`; the loop emits exactly `candleDates 200 0`. -/
theorem C8_candlestick_dates :
    (∀ d ∈ candleDates 200 0, d % 7 < 5) ∧
      List.Chain' (· < ·) (candleDates 200 0) :=
  ⟨candleDates_weekday 200 0 (by norm_num), candleDates_sorted 200 0⟩

/-! ## synteny_blocks.tsv and reads.tsv intervals (generate.py lines 636-711) -/

/-- One row of synteny_blocks.tsv. -/
structure Block where
  seq1 : String
  start1 : ℤ
  end1 : ℤ
  seq2 : String
  start2 : ℤ
  end2 : ℤ
  strand : String
deriving DecidableEq

/-- The draws one iteration of `generate_synteny_blocks`'s loop consumes from
its dedicated `np.random.default_rng(42 + seed_offset)` stream, in source
order: `rng.integers(min_block, max_block)`, `rng.integers(-20_000, 20_000)`,
`rng.uniform(0.85, 1.15)`, `rng.random()` (compared against the inversion
rate), and `rng.integers(10_000, 50_000)` twice. -/
structure BlockDraw where
  blockLen : ℤ
  offset : ℤ
  ratio : ℚ
  strandU : ℚ
  gap1 : ℤ
  gap2 : ℤ

/-- The support the distributions guarantee for one iteration's draws
(`rng.integers` excludes its upper bound; `rng.uniform(a, b)` lies in
`[a, b)`). -/
def BlockDraw.InRange (d : BlockDraw) : Prop :=
  50000 ≤ d.blockLen ∧ d.blockLen < 400000 ∧
    -20000 ≤ d.offset ∧ d.offset < 20000 ∧
    (17/20 : ℚ) ≤ d.ratio ∧ d.ratio < 23/20 ∧
    10000 ≤ d.gap1 ∧ d.gap1 < 50000 ∧ 10000 ≤ d.gap2 ∧ d.gap2 < 50000

/-- The block-placement loop of `generate_synteny_blocks` (lines 656-672):
`n` counts the remaining iterations of `for i in range(n_blocks)`, `pos1` and
`pos2` are the advancing cursors, and `i` indexes the draw stream.  The float
literal `0.97` is modelled as `97/100` (the two differ by less than `2^-50`;
either threshold is at most `1`, which is all the bounds claim uses), and
`int(block_len * uniform(0.85, 1.15))`, a truncation of a positive float, is
the floor. -/
def genBlocksLoop (seq1 : String) (len1 : ℤ) (seq2 : String) (len2 : ℤ)
    (inversionRate : ℚ) (draw : ℕ → BlockDraw) :
    ℕ → ℤ → ℤ → ℕ → List Block
  | 0, _, _, _ => []
  | n + 1, pos1, pos2, i =>
    if ((pos1 + (draw i).blockLen : ℤ) : ℚ) > (len1 : ℚ) * (97/100) then []
    else if ((max 0 (pos2 + (draw i).offset)
          + ⌊((draw i).blockLen : ℚ) * (draw i).ratio⌋ : ℤ) : ℚ)
        > (len2 : ℚ) * (97/100) then []
    else
      ⟨seq1, pos1, pos1 + (draw i).blockLen,
        seq2, max 0 (pos2 + (draw i).offset),
        max 0 (pos2 + (draw i).offset) + ⌊((draw i).blockLen : ℚ) * (draw i).ratio⌋,
        if (draw i).strandU < inversionRate then "-" else "+"⟩ ::
        genBlocksLoop seq1 len1 seq2 len2 inversionRate draw n
          (pos1 + (draw i).blockLen + (draw i).gap1)
          (max 0 (pos2 + (draw i).offset) + ⌊((draw i).blockLen : ℚ) * (draw i).ratio⌋
            + (draw i).gap2)
          (i + 1)

/-- `generate_synteny_blocks(seq1, len1, seq2, len2, n_blocks,
inversion_rate=0.2)` (lines 648-673): cursors start at
`int(len * 0.02)` and the loop runs at most `n_blocks` iterations. -/
def generate_synteny_blocks (seq1 : String) (len1 : ℤ) (seq2 : String)
    (len2 : ℤ) (nBlocks : ℕ) (inversionRate : ℚ) (draw : ℕ → BlockDraw) :
    List Block :=
  genBlocksLoop seq1 len1 seq2 len2 inversionRate draw nBlocks
    ⌊(len1 : ℚ) * (2/100)⌋ ⌊(len2 : ℚ) * (2/100)⌋ 0

/-- `blocks_1ab` (line 675). -/
def blocks_1ab (draw : ℕ → BlockDraw) : List Block :=
  generate_synteny_blocks "Chr1A" 2800000 "Chr1B" 2650000 12 (1/5) draw

/-- `blocks_2ab` (line 676). -/
def blocks_2ab (draw : ℕ → BlockDraw) : List Block :=
  generate_synteny_blocks "Chr2A" 1900000 "Chr2B" 1750000 10 (1/5) draw

/-- The hard-coded cross-chromosome blocks (lines 678-682). -/
def cross_blocks : List Block :=
  [⟨"Chr1A", 2400000, 2550000, "Chr2B", 1550000, 1700000, "+"⟩,
   ⟨"Chr2A", 100000, 250000, "Chr1B", 2400000, 2550000, "-"⟩,
   ⟨"Chr1A", 100000, 220000, "Chr2A", 1600000, 1720000, "+"⟩]

/-- `all_blocks = blocks_1ab + blocks_2ab + cross_blocks` (line 683). -/
def all_blocks (draw1 draw2 : ℕ → BlockDraw) : List Block :=
  blocks_1ab draw1 ++ blocks_2ab draw2 ++ cross_blocks

/-- The declared sequence lengths (the synteny_seqs.tsv table, lines
636-641). -/
def synteny_seq_len (s : String) : ℤ :=
  if s = "Chr1A" then 2800000
  else if s = "Chr1B" then 2650000
  else if s = "Chr2A" then 1900000
  else if s = "Chr2B" then 1750000
  else 0

/-- The interval property C7 asserts of a block row against the declared
sequence lengths. -/
def Block.WellPlaced (b : Block) : Prop :=
  0 ≤ b.start1 ∧ b.start1 < b.end1 ∧ b.end1 ≤ synteny_seq_len b.seq1 ∧
    0 ≤ b.start2 ∧ b.start2 < b.end2 ∧ b.end2 ≤ synteny_seq_len b.seq2

theorem genBlocksLoop_bounds {seq1 seq2 : String} {len1 len2 : ℤ}
    (h1 : 0 ≤ len1) (h2 : 0 ≤ len2) {ir : ℚ} {draw : ℕ → BlockDraw}
    (hdraw : ∀ i, (draw i).InRange) :
    ∀ (n : ℕ) (pos1 pos2 : ℤ) (i : ℕ), 0 ≤ pos1 →
      ∀ b ∈ genBlocksLoop seq1 len1 seq2 len2 ir draw n pos1 pos2 i,
        0 ≤ b.start1 ∧ b.start1 < b.end1 ∧ b.end1 ≤ len1 ∧
          0 ≤ b.start2 ∧ b.start2 < b.end2 ∧ b.end2 ≤ len2 := by
  intro n
  induction n with
  | zero =>
    intro pos1 pos2 i hp b hb
    simp [genBlocksLoop] at hb
  | succ n ih =>
    intro pos1 pos2 i hp b hb
    rw [genBlocksLoop] at hb
    rcases hdraw i with ⟨hbl, hbl', hoff, hoff', hr, hr', hg1, hg1', hg2, hg2'⟩
    by_cases hc1 : ((pos1 + (draw i).blockLen : ℤ) : ℚ) > (len1 : ℚ) * (97/100)
    · rw [if_pos hc1] at hb; cases hb
    · rw [if_neg hc1] at hb
      by_cases hc2 : ((max 0 (pos2 + (draw i).offset)
            + ⌊((draw i).blockLen : ℚ) * (draw i).ratio⌋ : ℤ) : ℚ)
          > (len2 : ℚ) * (97/100)
      · rw [if_pos hc2] at hb; cases hb
      · rw [if_neg hc2] at hb
        have hfloor : 1 ≤ ⌊((draw i).blockLen : ℚ) * (draw i).ratio⌋ := by
          rw [Int.le_floor]
          calc ((1 : ℤ) : ℚ) = 1 := by norm_num
            _ ≤ ((draw i).blockLen : ℚ) * (17/20) := by
                have : (50000 : ℚ) ≤ ((draw i).blockLen : ℚ) := by exact_mod_cast hbl
                nlinarith
            _ ≤ ((draw i).blockLen : ℚ) * (draw i).ratio := by
                have : (0 : ℚ) ≤ ((draw i).blockLen : ℚ) := by
                  have : (0 : ℤ) ≤ (draw i).blockLen := by omega
                  exact_mod_cast this
                nlinarith
        have hend1 : pos1 + (draw i).blockLen ≤ len1 := by
          have hle : ((pos1 + (draw i).blockLen : ℤ) : ℚ) ≤ (len1 : ℚ) * (97/100) :=
            not_lt.mp hc1
          have hlen1 : (0 : ℚ) ≤ (len1 : ℚ) := by exact_mod_cast h1
          have : ((pos1 + (draw i).blockLen : ℤ) : ℚ) ≤ (len1 : ℚ) := by nlinarith
          exact_mod_cast this
        have hend2 : max 0 (pos2 + (draw i).offset)
            + ⌊((draw i).blockLen : ℚ) * (draw i).ratio⌋ ≤ len2 := by
          have hle : ((max 0 (pos2 + (draw i).offset)
              + ⌊((draw i).blockLen : ℚ) * (draw i).ratio⌋ : ℤ) : ℚ)
              ≤ (len2 : ℚ) * (97/100) := not_lt.mp hc2
          have hlen2 : (0 : ℚ) ≤ (len2 : ℚ) := by exact_mod_cast h2
          have : ((max 0 (pos2 + (draw i).offset)
              + ⌊((draw i).blockLen : ℚ) * (draw i).ratio⌋ : ℤ) : ℚ) ≤ (len2 : ℚ) := by
            nlinarith
          exact_mod_cast this
        rcases List.mem_cons.mp hb with hb | hb
        · subst hb
          dsimp only
          refine ⟨hp, by omega, hend1, le_max_left 0 _, by omega, hend2⟩
        · exact ih _ _ _ (by omega) b hb

/-- Bounds for the two generated block lists against the declared sequence
lengths. -/
theorem generated_blocks_wellPlaced {draw1 draw2 : ℕ → BlockDraw}
    (hd1 : ∀ i, (draw1 i).InRange) (hd2 : ∀ i, (draw2 i).InRange) :
    ∀ b ∈ blocks_1ab draw1 ++ blocks_2ab draw2, b.WellPlaced := by
  intro b hb
  have key : ∀ (s1 : String) (l1 : ℤ) (s2 : String) (l2 : ℤ) (nb : ℕ) (ir : ℚ)
      (draw : ℕ → BlockDraw), (∀ i, (draw i).InRange) → 0 ≤ l1 → 0 ≤ l2 →
      ∀ b ∈ generate_synteny_blocks s1 l1 s2 l2 nb ir draw,
        0 ≤ b.start1 ∧ b.start1 < b.end1 ∧ b.end1 ≤ l1 ∧
          0 ≤ b.start2 ∧ b.start2 < b.end2 ∧ b.end2 ≤ l2 ∧
          b.seq1 = s1 ∧ b.seq2 = s2 := by
    intro s1 l1 s2 l2 nb ir draw hdr hl1 hl2 b hb
    have hseq : ∀ (n : ℕ) (p1 p2 : ℤ) (j : ℕ),
        ∀ b ∈ genBlocksLoop s1 l1 s2 l2 ir draw n p1 p2 j,
          b.seq1 = s1 ∧ b.seq2 = s2 := by
      intro n
      induction n with
      | zero => intro p1 p2 j b hb; simp [genBlocksLoop] at hb
      | succ n ih =>
        intro p1 p2 j b hb
        rw [genBlocksLoop] at hb
        split at hb
        · cases hb
        · split at hb
          · cases hb
          · rcases List.mem_cons.mp hb with hb | hb
            · subst hb; exact ⟨rfl, rfl⟩
            · exact ih _ _ _ b hb
    have hpos : (0 : ℤ) ≤ ⌊(l1 : ℚ) * (2/100)⌋ := by
      rw [Int.le_floor]
      have : (0 : ℚ) ≤ (l1 : ℚ) := by exact_mod_cast hl1
      push_cast
      nlinarith
    have hbd := genBlocksLoop_bounds hl1 hl2 hdr nb _ _ 0 hpos b hb
    have hsq := hseq nb _ _ 0 b hb
    exact ⟨hbd.1, hbd.2.1, hbd.2.2.1, hbd.2.2.2.1, hbd.2.2.2.2.1, hbd.2.2.2.2.2,
      hsq.1, hsq.2⟩
  rcases List.mem_append.mp hb with hb | hb
  · have := key "Chr1A" 2800000 "Chr1B" 2650000 12 (1/5) draw1 hd1
      (by norm_num) (by norm_num) b hb
    rcases this with ⟨a1, a2, a3, a4, a5, a6, e1, e2⟩
    refine ⟨a1, a2, ?_, a4, a5, ?_⟩
    · rw [e1]; simpa [synteny_seq_len] using a3
    · rw [e2]; simpa [synteny_seq_len] using a6
  · have := key "Chr2A" 1900000 "Chr2B" 1750000 10 (1/5) draw2 hd2
      (by norm_num) (by norm_num) b hb
    rcases this with ⟨a1, a2, a3, a4, a5, a6, e1, e2⟩
    refine ⟨a1, a2, ?_, a4, a5, ?_⟩
    · rw [e1]; simpa [synteny_seq_len] using a3
    · rw [e2]; simpa [synteny_seq_len] using a6

theorem cross_blocks_wellPlaced : ∀ b ∈ cross_blocks, b.WellPlaced := by
  intro b hb
  fin_cases hb <;> simp [Block.WellPlaced, synteny_seq_len]

/-- numpy `clip` on integers. -/
def npClip (x lo hi : ℤ) : ℤ := min (max x lo) hi

/-- `all_starts` of reads.tsv (lines 693-701) as an indexed array.  350
reads; the first 227 (`peak_reads = int(350 * 0.65)`) are peak reads with
starts `np.clip(np.random.normal(2800, 600).astype(int), 0, 7800)` — the raw
integer-truncated normal draw `peakRaw` is unconstrained, clipping bounds
it — and the remaining 123 have `np.random.randint(0, 7900)` starts. -/
def readStart (peakRaw scatterStart : ℕ → ℤ) (i : ℕ) : ℤ :=
  if i < 227 then npClip (peakRaw i) 0 7800 else scatterStart (i - 227)

/-- `all_ends = np.minimum(all_starts + lengths, 8000)` (lines 702-704),
with `lengths[i]` a draw of `np.random.randint(80, 251)`. -/
def readEnd (peakRaw scatterStart lengthOf : ℕ → ℤ) (i : ℕ) : ℤ :=
  min (readStart peakRaw scatterStart i + lengthOf i) 8000

/-- Left-pad a number with zeros to width `w` (Python `f"{n:04d}"`). -/
def zeroPad (w : ℕ) (n : ℕ) : String :=
  String.mk (List.replicate (w - (toString n).length) '0') ++ toString n

/-- The rows of reads.tsv (lines 706-711): the 350 read intervals listed in
ascending-start order (`order = np.argsort(all_starts)`), each named
`read_{rank+1:04d}` by its rank in that order. -/
def readsRows (peakRaw scatterStart lengthOf : ℕ → ℤ) (strandOf : ℕ → String) :
    List (List Value) :=
  (pyEnum (argsort 0 ((List.range 350).map (readStart peakRaw scatterStart)))).map
    (fun ri =>
      [Value.s ("read_" ++ zeroPad 4 (ri.1 + 1)),
       Value.i (readStart peakRaw scatterStart ri.2),
       Value.i (readEnd peakRaw scatterStart lengthOf ri.2),
       Value.s (strandOf ri.2)])

theorem read_interval_bounds {peakRaw scatterStart lengthOf : ℕ → ℤ}
    (hsc : ∀ i, 0 ≤ scatterStart i ∧ scatterStart i ≤ 7899)
    (hlen : ∀ i, 80 ≤ lengthOf i ∧ lengthOf i ≤ 250) (i : ℕ) :
    0 ≤ readStart peakRaw scatterStart i ∧
      readStart peakRaw scatterStart i < readEnd peakRaw scatterStart lengthOf i ∧
      readEnd peakRaw scatterStart lengthOf i ≤ 8000 := by
  rcases hsc (i - 227) with ⟨h1, h2⟩
  rcases hlen i with ⟨h3, h4⟩
  by_cases hi : i < 227 <;> simp only [readStart, readEnd, npClip, hi, if_pos, if_neg,
    if_true, if_false, ite_true, ite_false] <;> omega

theorem readsRows_bounds {peakRaw scatterStart lengthOf : ℕ → ℤ}
    {strandOf : ℕ → String}
    (hsc : ∀ i, 0 ≤ scatterStart i ∧ scatterStart i ≤ 7899)
    (hlen : ∀ i, 80 ≤ lengthOf i ∧ lengthOf i ≤ 250) :
    ∀ row ∈ readsRows peakRaw scatterStart lengthOf strandOf,
      ∃ (nm : String) (a b : ℤ) (sd : String),
        row = [Value.s nm, Value.i a, Value.i b, Value.s sd] ∧
          0 ≤ a ∧ a < b ∧ b ≤ 8000 := by
  intro row hrow
  rcases List.mem_map.mp hrow with ⟨ri, _, heq⟩
  rcases read_interval_bounds hsc hlen ri.2 with ⟨b1, b2, b3⟩
  exact ⟨_, _, _, _, heq.symm, b1, b2, b3⟩

/-- C7: every interval emitted by the interval-placement recipes — every
block row of synteny_blocks.tsv (generated and hard-coded cross-chromosome
blocks, on both the seq1 and the seq2 coordinates) and every read row of
reads.tsv — satisfies start < end and lies within the declared length bounds
of its sequence (the synteny sequence lengths for blocks, the 0..8000 span
for reads).  The hypotheses state exactly the support the sampled
distributions guarantee for the random draws. -/
theorem C7_intervals_in_bounds (draw1 draw2 : ℕ → BlockDraw)
    (peakRaw scatterStart lengthOf : ℕ → ℤ) (strandOf : ℕ → String)
    (hd1 : ∀ i, (draw1 i).InRange) (hd2 : ∀ i, (draw2 i).InRange)
    (hsc : ∀ i, 0 ≤ scatterStart i ∧ scatterStart i ≤ 7899)
    (hlen : ∀ i, 80 ≤ lengthOf i ∧ lengthOf i ≤ 250) :
    (∀ b ∈ all_blocks draw1 draw2, b.WellPlaced) ∧
      (∀ row ∈ readsRows peakRaw scatterStart lengthOf strandOf,
        ∃ (nm : String) (a b : ℤ) (sd : String),
          row = [Value.s nm, Value.i a, Value.i b, Value.s sd] ∧
            0 ≤ a ∧ a < b ∧ b ≤ 8000) := by
  refine ⟨?_, readsRows_bounds hsc hlen⟩
  intro b hb
  rw [all_blocks, List.append_assoc] at hb
  rcases List.mem_append.mp hb with hb | hb
  · exact generated_blocks_wellPlaced hd1 hd2 b (List.mem_append_left _ hb)
  · rcases List.mem_append.mp hb with hb | hb
    · exact generated_blocks_wellPlaced hd1 hd2 b (List.mem_append_right _ hb)
    · exact cross_blocks_wellPlaced b hb

/-- Witness for C7 at concrete draw streams. -/
theorem C7_intervals_in_bounds_witness :
    (∀ b ∈ all_blocks (fun _ => ⟨50000, 0, 1, 1/2, 10000, 10000⟩)
        (fun _ => ⟨50000, 0, 1, 1/2, 10000, 10000⟩), b.WellPlaced) ∧
      (∀ row ∈ readsRows (fun _ => 2800) (fun _ => 0) (fun _ => 80) (fun _ => "+"),
        ∃ (nm : String) (a b : ℤ) (sd : String),
          row = [Value.s nm, Value.i a, Value.i b, Value.s sd] ∧
            0 ≤ a ∧ a < b ∧ b ≤ 8000) :=
  C7_intervals_in_bounds _ _ _ _ _ _
    (fun _ => by constructor <;> norm_num [BlockDraw.InRange])
    (fun _ => by constructor <;> norm_num [BlockDraw.InRange])
    (fun _ => by norm_num) (fun _ => by norm_num)

/-! ## candlestick.tsv OHLC values (generate.py lines 361-374) -/

/-- One candlestick row's numeric values. -/
structure Candle where
  open_ : ℚ
  high : ℚ
  low : ℚ
  close : ℚ
  volume : ℤ
deriving DecidableEq

/-- `close = round(price * (1 + daily_return), 2)` (line 366). -/
def candleClose (price ret : ℚ) : ℚ := pyRound 2 (price * (1 + ret))

/-- `open_ = round(price * (1 + np.random.normal(0, 0.003)), 2)` (line 367). -/
def candleOpen (price noise : ℚ) : ℚ := pyRound 2 (price * (1 + noise))

/-- One iteration of the candlestick loop body (lines 365-371); `ret`,
`noise`, `t`, `u` are the iteration's raw draw values and `vol` the
already-integerised volume draw.
`high = round(max(open_, close) * (1 + abs(t)), 2)` and
`low = round(min(open_, close) * (1 - abs(u)), 2)`. -/
def candleStep (price ret noise t u : ℚ) (vol : ℤ) : Candle :=
  { open_ := candleOpen price noise
    high := pyRound 2 (max (candleOpen price noise) (candleClose price ret) * (1 + |t|))
    low := pyRound 2 (min (candleOpen price noise) (candleClose price ret) * (1 - |u|))
    close := candleClose price ret
    volume := vol }

/-- The candlestick loop (lines 364-374): 200 iterations, each consuming a
normal(0.0003, 0.018) daily return, a normal(0, 0.003) open jitter, two
half-normal(0.008) wick extents and a volume draw, with each row's close
becoming the next row's reference price.  Normal draws are embedded as
`mu + sigma * z`. -/
def candles (ret noise t u : ℕ → ℚ) (vol : ℕ → ℤ) : ℕ → ℚ → ℕ → List Candle
  | 0, _, _ => []
  | n + 1, price, i =>
    candleStep price (3/10000 + 18/1000 * ret i) (3/1000 * noise i)
        (8/1000 * t i) (8/1000 * u i) (vol i) ::
      candles ret noise t u vol n
        (candleClose price (3/10000 + 18/1000 * ret i)) (i + 1)

theorem round_mono_q {x y : ℚ} (h : x ≤ y) : round x ≤ round y := by
  rw [round_eq, round_eq]
  exact Int.floor_le_floor (by linarith)

theorem pyRound_mono (n : ℕ) {x y : ℚ} (h : x ≤ y) : pyRound n x ≤ pyRound n y := by
  rw [pyRound, pyRound]
  have h10 : (0 : ℚ) < 10 ^ n := by positivity
  have hm := round_mono_q (mul_le_mul_of_nonneg_right h (le_of_lt h10))
  gcongr

theorem pyRound_fix (n : ℕ) (k : ℤ) : pyRound n ((k : ℚ) / 10 ^ n) = (k : ℚ) / 10 ^ n := by
  rw [pyRound]
  have h10 : (10 : ℚ) ^ n ≠ 0 := by positivity
  have : ((k : ℚ) / 10 ^ n * 10 ^ n) = (k : ℚ) := by field_simp
  rw [this, round_intCast]

theorem pyRound_zero (n : ℕ) : pyRound n 0 = 0 := by
  simpa using pyRound_fix n 0

theorem pyRound_nonneg (n : ℕ) {x : ℚ} (h : 0 ≤ x) : 0 ≤ pyRound n x := by
  have := pyRound_mono n h
  rwa [pyRound_zero] at this

/-- A two-decimal value already at a multiple of `1/100` is not decreased by
rounding anything at least as large. -/
theorem pyRound_ge_multiple {k : ℤ} {x : ℚ} (h : (k : ℚ) / 10 ^ 2 ≤ x) :
    (k : ℚ) / 10 ^ 2 ≤ pyRound 2 x := by
  calc (k : ℚ) / 10 ^ 2 = pyRound 2 ((k : ℚ) / 10 ^ 2) := (pyRound_fix 2 k).symm
    _ ≤ pyRound 2 x := pyRound_mono 2 h

theorem pyRound_le_multiple {k : ℤ} {x : ℚ} (h : x ≤ (k : ℚ) / 10 ^ 2) :
    pyRound 2 x ≤ (k : ℚ) / 10 ^ 2 := by
  calc pyRound 2 x ≤ pyRound 2 ((k : ℚ) / 10 ^ 2) := pyRound_mono 2 h
    _ = (k : ℚ) / 10 ^ 2 := pyRound_fix 2 k

/-- Every `pyRound 2` output is an integer multiple of `1/100`. -/
theorem pyRound_repr (x : ℚ) : ∃ k : ℤ, pyRound 2 x = (k : ℚ) / 10 ^ 2 :=
  ⟨round (x * 10 ^ 2), rfl⟩

theorem min_repr {a b : ℚ} (ha : ∃ k : ℤ, a = (k : ℚ) / 10 ^ 2)
    (hb : ∃ k : ℤ, b = (k : ℚ) / 10 ^ 2) :
    ∃ k : ℤ, min a b = (k : ℚ) / 10 ^ 2 := by
  rcases ha with ⟨k1, rfl⟩
  rcases hb with ⟨k2, rfl⟩
  refine ⟨min k1 k2, ?_⟩
  rw [Int.cast_min, min_div_div_right (by norm_num : (0 : ℚ) ≤ 10 ^ 2)]

theorem max_repr {a b : ℚ} (ha : ∃ k : ℤ, a = (k : ℚ) / 10 ^ 2)
    (hb : ∃ k : ℤ, b = (k : ℚ) / 10 ^ 2) :
    ∃ k : ℤ, max a b = (k : ℚ) / 10 ^ 2 := by
  rcases ha with ⟨k1, rfl⟩
  rcases hb with ⟨k2, rfl⟩
  refine ⟨max k1 k2, ?_⟩
  rw [Int.cast_max, max_div_div_right (by norm_num : (0 : ℚ) ≤ 10 ^ 2)]

/-- Shrinking a nonnegative two-decimal value by the low-wick factor and
rounding cannot exceed the value. -/
theorem wick_low_le {m : ℚ} (hm : 0 ≤ m) (hrep : ∃ k : ℤ, m = (k : ℚ) / 10 ^ 2)
    (u : ℚ) : pyRound 2 (m * (1 - |u|)) ≤ m := by
  rcases hrep with ⟨k, hk⟩
  subst hk
  apply pyRound_le_multiple
  nlinarith [abs_nonneg u]

/-- Growing a nonnegative two-decimal value by the high-wick factor and
rounding cannot fall below the value. -/
theorem wick_high_ge {M : ℚ} (hM : 0 ≤ M) (hrep : ∃ k : ℤ, M = (k : ℚ) / 10 ^ 2)
    (t : ℚ) : M ≤ pyRound 2 (M * (1 + |t|)) := by
  rcases hrep with ⟨k, hk⟩
  subst hk
  apply pyRound_ge_multiple
  nlinarith [abs_nonneg t]

theorem candleOpen_nonneg {price noise : ℚ} (hp : 0 ≤ price) (h : 0 ≤ 1 + noise) :
    0 ≤ candleOpen price noise :=
  pyRound_nonneg 2 (mul_nonneg hp h)

theorem candleClose_nonneg {price ret : ℚ} (hp : 0 ≤ price) (h : 0 ≤ 1 + ret) :
    0 ≤ candleClose price ret :=
  pyRound_nonneg 2 (mul_nonneg hp h)

theorem candleStep_ohlc {price ret noise t u : ℚ} {vol : ℤ}
    (hp : 0 ≤ price) (h1 : 0 ≤ 1 + ret) (h2 : 0 ≤ 1 + noise) :
    (candleStep price ret noise t u vol).low
        ≤ min (candleStep price ret noise t u vol).open_
            (candleStep price ret noise t u vol).close ∧
      max (candleStep price ret noise t u vol).open_
          (candleStep price ret noise t u vol).close
        ≤ (candleStep price ret noise t u vol).high := by
  have ho : 0 ≤ candleOpen price noise := candleOpen_nonneg hp h2
  have hc : 0 ≤ candleClose price ret := candleClose_nonneg hp h1
  have hro : ∃ k : ℤ, candleOpen price noise = (k : ℚ) / 10 ^ 2 := pyRound_repr _
  have hrc : ∃ k : ℤ, candleClose price ret = (k : ℚ) / 10 ^ 2 := pyRound_repr _
  constructor
  · exact wick_low_le (le_min ho hc) (min_repr hro hrc) u
  · exact wick_high_ge (le_trans ho (le_max_left _ _)) (max_repr hro hrc) t

theorem candles_ohlc {ret noise t u : ℕ → ℚ} {vol : ℕ → ℤ}
    (hret : ∀ i, 0 ≤ 1 + (3/10000 + 18/1000 * ret i))
    (hnoise : ∀ i, 0 ≤ 1 + 3/1000 * noise i) :
    ∀ (n : ℕ) (price : ℚ) (i : ℕ), 0 ≤ price →
      ∀ cd ∈ candles ret noise t u vol n price i,
        cd.low ≤ min cd.open_ cd.close ∧ max cd.open_ cd.close ≤ cd.high := by
  intro n
  induction n with
  | zero =>
    intro price i hp cd hcd
    simp [candles] at hcd
  | succ n ih =>
    intro price i hp cd hcd
    rw [candles] at hcd
    rcases List.mem_cons.mp hcd with h | h
    · subst h
      exact candleStep_ohlc hp (hret i) (hnoise i)
    · exact ih _ _ (candleClose_nonneg hp (hret i)) cd h

/-- C10: in every row of candlestick.tsv the OHLC ordering invariant holds:
low ≤ min(open, close) and high ≥ max(open, close), so low ≤ open ≤ high and
low ≤ close ≤ high.  The hypotheses say each daily-return and open-jitter
factor is nonnegative — guaranteed for the magnitudes the generator draws
(normal(0.0003, 0.018) and normal(0, 0.003) never approach -1 in practice,
though their support is unbounded). -/
theorem C10_candlestick_ohlc (ret noise t u : ℕ → ℚ) (vol : ℕ → ℤ)
    (hret : ∀ i, 0 ≤ 1 + (3/10000 + 18/1000 * ret i))
    (hnoise : ∀ i, 0 ≤ 1 + 3/1000 * noise i) :
    ∀ cd ∈ candles ret noise t u vol 200 (14250/100) 0,
      cd.low ≤ min cd.open_ cd.close ∧ max cd.open_ cd.close ≤ cd.high ∧
        cd.low ≤ cd.open_ ∧ cd.open_ ≤ cd.high ∧
        cd.low ≤ cd.close ∧ cd.close ≤ cd.high := by
  intro cd hcd
  rcases candles_ohlc hret hnoise 200 (14250/100) 0 (by norm_num) cd hcd with ⟨hl, hh⟩
  exact ⟨hl, hh, le_trans hl (min_le_left _ _), le_trans (le_max_left _ _) hh,
    le_trans hl (min_le_right _ _), le_trans (le_max_right _ _) hh⟩

/-- The first row the candlestick loop emits when every draw is zero (and
the volume draw is 1000000). -/
def firstCandle : Candle :=
  candleStep (14250/100) (3/10000 + 18/1000 * 0) (3/1000 * 0) (8/1000 * 0)
    (8/1000 * 0) 1000000

/-- Witness for C10 at concrete draw streams, instantiated at the first
emitted row. -/
theorem C10_candlestick_ohlc_witness :
    firstCandle.low ≤ min firstCandle.open_ firstCandle.close ∧
      max firstCandle.open_ firstCandle.close ≤ firstCandle.high ∧
      firstCandle.low ≤ firstCandle.open_ ∧ firstCandle.open_ ≤ firstCandle.high ∧
      firstCandle.low ≤ firstCandle.close ∧ firstCandle.close ≤ firstCandle.high :=
  C10_candlestick_ohlc (fun _ => 0) (fun _ => 0) (fun _ => 0) (fun _ => 0)
    (fun _ => 1000000) (fun _ => by norm_num) (fun _ => by norm_num)
    firstCandle (List.mem_cons_self _ _)

/-! ## The per-table recipes (generate.py lines 25-530)

Each recipe is embedded as a function from its random draws to its ordered
row list; rows are `List Value` cells in source order.  Draws from
`normal(mu, sigma)` appear as `mu + sigma * z`, draws from `uniform(a, b)` as
`a + (b - a) * u`, and transcendental float functions (`np.exp`, `np.sin`,
`np.cos`, π) are taken as parameters, since no claim depends on their
values. -/

/-- numpy `clip` on rationals (`np.clip(x, lo, hi)`). -/
def clipQ (x lo hi : ℚ) : ℚ := min (max x lo) hi

/-- `np.random.shuffle` reorders a list in place by the permutation the RNG
produced; modelled as reading off positions from the permutation's index
list (for a genuine permutation every index is in range and appears exactly
once). -/
def applyShuffle (perm : List ℕ) (l : List α) : List α := perm.filterMap l.get?

theorem applyShuffle_mem {perm : List ℕ} {l : List α} {x : α}
    (h : x ∈ applyShuffle perm l) : x ∈ l := by
  rcases List.mem_filterMap.mp h with ⟨i, _, hi⟩
  exact List.get?_mem hi

theorem pyEnumFrom_mem {x : ℕ × α} {k : ℕ} {l : List α}
    (h : x ∈ pyEnumFrom k l) : x.2 ∈ l := by
  induction l generalizing k with
  | nil => cases h
  | cons a as ih =>
    rcases List.mem_cons.mp h with h | h
    · subst h; exact List.mem_cons_self _ _
    · exact List.mem_cons_of_mem _ (ih h)

theorem pyEnum_mem {x : ℕ × α} {l : List α} (h : x ∈ pyEnum l) : x.2 ∈ l :=
  pyEnumFrom_mem h

/-- scatter.tsv (lines 28-38): the three cluster parameter tuples
(name, cx, cy, sx, sy, rho). -/
structure SGroup where
  name : String
  cx : ℚ
  cy : ℚ
  sx : ℚ
  sy : ℚ
  rho : ℚ

def scatterGroups : List SGroup :=
  [⟨"Group_A", 3, 55/10, 12/10, 9/10, 60/100⟩,
   ⟨"Group_B", 75/10, 7, 1, 11/10, 45/100⟩,
   ⟨"Group_C", 5, 2, 8/10, 75/100, -(30/100)⟩]

/-- scatter.tsv rows before the shuffle (lines 28-37): for each group, 80
bivariate-normal draws (`pts g j`, whose distribution is shaped by the
group's mean/covariance parameters), each emitted as
`(round(x, 3), round(y, 3), group)`. -/
def scatterRowsOrdered (pts : ℕ → ℕ → ℚ × ℚ) : List (List Value) :=
  (pyEnum scatterGroups).flatMap (fun g =>
    (List.range 80).map (fun j =>
      [Value.q (pyRound 3 (pts g.1 j).1), Value.q (pyRound 3 (pts g.1 j).2),
       Value.s g.2.name]))

/-- scatter.tsv rows (line 38: `np.random.shuffle(rows_sc)`). -/
def scatterRows (pts : ℕ → ℕ → ℚ × ℚ) (perm : List ℕ) : List (List Value) :=
  applyShuffle perm (scatterRowsOrdered pts)

/-- volcano.tsv `_vc_fc` (lines 45-73): six normal segments, the
up/down/borderline/outer segments through `np.abs` with the appropriate
sign; `z i` is the element's standard-normal draw. -/
def vcFc (z : ℕ → ℚ) (i : ℕ) : ℚ :=
  if i < 70 then 0 + 32/100 * z i
  else if i < 110 then |28/10 + 65/100 * z i|
  else if i < 150 then -|28/10 + 65/100 * z i|
  else if i < 162 then |115/100 + 12/100 * z i|
  else if i < 174 then -|115/100 + 12/100 * z i|
  else if i < 187 then |18/10 + 45/100 * z i|
  else -|18/10 + 45/100 * z i|

/-- volcano.tsv `_vc_pv` (lines 50-73): the matching uniform segments,
`uniform(a, b)` embedded as `a + (b - a) * u`. -/
def vcPv (u : ℕ → ℚ) (i : ℕ) : ℚ :=
  if i < 70 then 15/100 + (99/100 - 15/100) * u i
  else if i < 150 then 1/1000000000 + (5/1000 - 1/1000000000) * u i
  else if i < 174 then 8/1000 + (48/1000 - 8/1000) * u i
  else 7/100 + (55/100 - 7/100) * u i

/-- volcano.tsv rows (lines 75-79): names `Gene_001`..`Gene_200` and both
arrays reindexed by the permutation `np.random.permutation(200)` (`idx`),
then emitted as `(name, round(fc, 4), f"{pv:.6e}")`. -/
def volcanoRows (z u : ℕ → ℚ) (idx : ℕ → ℕ) : List (List Value) :=
  (List.range 200).map (fun i =>
    [Value.s ("Gene_" ++ zeroPad 3 (idx i + 1)),
     Value.q (pyRound 4 (vcFc z (idx i))),
     Value.s (sci6 (vcPv u (idx i)))])

/-- samples.tsv rows (lines 85-101): five groups in source order — Control
normal(5, 1.2), Drug_A normal(7.2, 1.5), Drug_B the 70 + 50 bimodal
concatenation, Drug_C normal(3.5, 2) clipped to [0, 15], Drug_D
exponential(1.5) (the nonnegative draw `e i`) plus 4.5. -/
def samplesRows (zc za zb1 zb2 zcc e : ℕ → ℚ) : List (List Value) :=
  (List.range 120).map (fun i =>
      [Value.s "Control", Value.q (pyRound 3 (5 + 12/10 * zc i))])
    ++ (List.range 120).map (fun i =>
      [Value.s "Drug_A", Value.q (pyRound 3 (72/10 + 15/10 * za i))])
    ++ (List.range 70).map (fun i =>
      [Value.s "Drug_B", Value.q (pyRound 3 (38/10 + 7/10 * zb1 i))])
    ++ (List.range 50).map (fun i =>
      [Value.s "Drug_B", Value.q (pyRound 3 (82/10 + 9/10 * zb2 i))])
    ++ (List.range 120).map (fun i =>
      [Value.s "Drug_C", Value.q (pyRound 3 (clipQ (35/10 + 2 * zcc i) 0 15))])
    ++ (List.range 120).map (fun i =>
      [Value.s "Drug_D", Value.q (pyRound 3 (e i + 45/10))])

/-- measurements.tsv group parameters (lines 109-113):
(name, base, scale, k, m, noise_sd). -/
structure MGroup where
  name : String
  base : ℚ
  scale : ℚ
  k : ℚ
  m : ℚ
  noiseSd : ℚ

def measurementsGroups : List MGroup :=
  [⟨"Condition_A", 15/10, 2, 40/100, 10, 15/100⟩,
   ⟨"Condition_B", 42/10, 25/10, 30/100, 10, 18/100⟩,
   ⟨"Condition_C", 7, 2, 35/100, 10, 15/100⟩]

/-- `np.linspace(0, 20, 50)`. -/
def linT (i : ℕ) : ℚ := 20 * i / 49

/-- The sigmoid `1 / (1 + exp(-k * (t - m)))` (line 107), with `fexp` the
model of the float `np.exp`. -/
def sigQ (fexp : ℚ → ℚ) (t k m : ℚ) : ℚ := 1 / (1 + fexp (-k * (t - m)))

/-- measurements.tsv rows (lines 106-121): three sigmoid growth curves over
the 50 time points, with per-point noise draw `z g j`. -/
def measurementsRows (fexp : ℚ → ℚ) (z : ℕ → ℕ → ℚ) : List (List Value) :=
  (pyEnum measurementsGroups).flatMap (fun g =>
    (List.range 50).map (fun j =>
      [Value.s g.2.name, Value.q (pyRound 2 (linT j)),
       Value.q (pyRound 3
         (g.2.base + g.2.scale * sigQ fexp (linT j) g.2.k g.2.m
           + g.2.noiseSd * z g.1 j))]))

/-- gene_stats.tsv chromosome names (line 127). -/
def chrom_names : List String :=
  (List.range 22).map (fun i => "chr" ++ toString (i + 1)) ++ ["chrX", "chrY"]

/-- `f"Gene_{i:04d}"` for gene array slot `i` (gene names run 1..8000). -/
def geneName (i : ℕ) : String := "Gene_" ++ zeroPad 4 (i + 1)

/-- gene_stats.tsv pvalue array after the shuffle (lines 148-168): slots
whose pre-shuffle position `idx i` is below 7600 are null genes with
`uniform(0.05, 1.0)` draws, the rest are DE genes with
`uniform(1e-8, 0.001)` draws. -/
def gsPvalue (u : ℕ → ℚ) (idx : ℕ → ℕ) (i : ℕ) : ℚ :=
  if idx i < 7600 then 5/100 + (1 - 5/100) * u (idx i)
  else 1/100000000 + (1/1000 - 1/100000000) * u (idx i)

/-- gene_stats.tsv log2fc array after the shuffle (lines 153-168): null
genes `normal(0, 0.3)`, DE genes `choice([-1, 1]) * normal(3.5, 0.8)`. -/
def gsLog2fc (z : ℕ → ℚ) (sgn : ℕ → Bool) (idx : ℕ → ℕ) (i : ℕ) : ℚ :=
  if idx i < 7600 then 0 + 3/10 * z (idx i)
  else (if sgn (idx i) then 1 else -1) * (35/10 + 8/10 * z (idx i))

/-- gene_stats.tsv rows (lines 179-189): gene name, weighted-choice
chromosome (`cIdx` the chosen index into `chrom_names`), `randint` position
(`pos`), `round(lognormal(5, 2), 1)` basemean, `round(log2fc, 4)`, and the
`.6e`-formatted pvalue and padj, the latter from the pipeline of lines
170-177 applied to the shuffled pvalue array. -/
def geneStatsRows (fexp : ℚ → ℚ) (u zfc zbm : ℕ → ℚ) (sgn : ℕ → Bool)
    (cIdx : ℕ → ℕ) (pos : ℕ → ℤ) (idx : ℕ → ℕ) : List (List Value) :=
  (List.range 8000).map (fun i =>
    [Value.s (geneName (idx i)),
     Value.s (chrom_names.getD (cIdx (idx i)) "chr1"),
     Value.i (pos (idx i)),
     Value.q (pyRound 1 (fexp (5 + 2 * zbm (idx i)))),
     Value.q (pyRound 4 (gsLog2fc zfc sgn idx i)),
     Value.s (sci6 (gsPvalue u idx i)),
     Value.s (sci6 ((padj_ordered ((List.range 8000).map (gsPvalue u idx))).getD i 0))])

/-- bar.tsv rows (lines 199-225): the twenty fixed GO-term/count pairs. -/
def barRows : List (List Value) :=
  [[Value.s "cell cycle regulation", Value.i 320],
   [Value.s "DNA repair", Value.i 285],
   [Value.s "immune response", Value.i 257],
   [Value.s "apoptosis", Value.i 231],
   [Value.s "protein folding", Value.i 208],
   [Value.s "mRNA splicing", Value.i 187],
   [Value.s "oxidative phosphorylation", Value.i 168],
   [Value.s "chromatin remodeling", Value.i 152],
   [Value.s "signal transduction", Value.i 137],
   [Value.s "vesicle-mediated transport", Value.i 123],
   [Value.s "cytoskeleton organization", Value.i 111],
   [Value.s "transcription regulation", Value.i 100],
   [Value.s "protein ubiquitination", Value.i 90],
   [Value.s "lipid metabolism", Value.i 81],
   [Value.s "RNA processing", Value.i 68],
   [Value.s "cell adhesion", Value.i 55],
   [Value.s "autophagy", Value.i 42],
   [Value.s "mitochondrial organization", Value.i 33],
   [Value.s "ion transport", Value.i 22],
   [Value.s "protein phosphorylation", Value.i 15]]

/-- histogram.tsv rows (lines 230-235): 550 draws of normal(42, 8) followed
by 350 draws of normal(68, 6), one `round(v, 2)` cell per row. -/
def histogramRows (z1 z2 : ℕ → ℚ) : List (List Value) :=
  (List.range 550).map (fun i => [Value.q (pyRound 2 (42 + 8 * z1 i))])
    ++ (List.range 350).map (fun i => [Value.q (pyRound 2 (68 + 6 * z2 i))])

/-- pie.tsv rows (lines 240-249). -/
def pieRows : List (List Value) :=
  [[Value.s "Intron", Value.q 37],
   [Value.s "Intergenic", Value.q 28],
   [Value.s "Repeat", Value.q 15],
   [Value.s "Exon", Value.q 9],
   [Value.s "3'UTR", Value.q 4],
   [Value.s "Promoter", Value.q 3],
   [Value.s "5'UTR", Value.q 2],
   [Value.s "Other", Value.q 2]]

/-- heatmap.tsv gene list (lines 255-259). -/
def gene_list : List String :=
  ["TP53", "BRCA1", "EGFR", "MYC", "CDK2", "RB1", "PTEN", "AKT1", "KRAS",
   "BRAF", "MDM2", "CCND1", "E2F1", "PCNA", "GAPDH", "ACTB", "STAT3", "JAK2",
   "PIK3CA", "MTOR", "ATM", "CHEK2", "RAD51", "BRCA2", "BCL2", "MCL1",
   "CASP3", "CASP9", "BAX", "BID"]

/-- `sample_names` (line 263). -/
def sample_names : List String :=
  (List.range 12).map (fun i => "Sample_" ++ zeroPad 2 (i + 1))

/-- `group_membership` (lines 272-274). -/
def group_membership : List String :=
  List.replicate 3 "Control" ++ List.replicate 3 "TreatA"
    ++ List.replicate 3 "TreatB" ++ List.replicate 3 "TreatC"

/-- `group_means[group][gi]` (lines 266-271): each group's list holds ten
copies of one value, so only the group matters. -/
def heatmapGroupMean (group : String) : ℚ :=
  if group = "Control" then 0
  else if group = "TreatA" then 2
  else if group = "TreatB" then -(3/2)
  else 1

/-- heatmap.tsv rows (lines 275-285): per gene, the gene name followed by 12
per-sample values `round(normal(mean, 1.0), 2)`, where the mean is
group-dependent for the first ten genes and 0 otherwise. -/
def heatmapRows (z : ℕ → ℕ → ℚ) : List (List Value) :=
  (pyEnum gene_list).map (fun g =>
    Value.s g.2 ::
      (pyEnum group_membership).map (fun sg =>
        Value.q (pyRound 2
          ((if g.1 < 10 then heatmapGroupMean sg.2 else 0) + 1 * z g.1 sg.1))))

/-- waterfall.tsv rows (lines 295-316). -/
def waterfallRows : List (List Value) :=
  [[Value.s "Glycolysis", Value.q (32/10)],
   [Value.s "DNA repair", Value.q (-(21/10))],
   [Value.s "Cell proliferation", Value.q (28/10)],
   [Value.s "Apoptosis", Value.q (-(18/10))],
   [Value.s "mTOR signaling", Value.q (25/10)],
   [Value.s "Autophagy", Value.q (-(23/10))],
   [Value.s "Angiogenesis", Value.q (19/10)],
   [Value.s "T cell activity", Value.q (-(27/10))],
   [Value.s "Ribosome biogenesis", Value.q (16/10)],
   [Value.s "Mitochondrial resp.", Value.q (-(14/10))],
   [Value.s "Protein synthesis", Value.q (14/10)],
   [Value.s "Oxidative stress", Value.q (-2)],
   [Value.s "Cell cycle", Value.q (22/10)],
   [Value.s "Ion transport", Value.q (-(11/10))],
   [Value.s "Chromatin remodel.", Value.q (13/10)],
   [Value.s "Interferon signaling", Value.q (-(28/10))],
   [Value.s "Vesicle transport", Value.q 1],
   [Value.s "Complement cascade", Value.q (-(31/10))],
   [Value.s "Lipid biosynthesis", Value.q (18/10)],
   [Value.s "Antiviral defense", Value.q (-(24/10))]]

/-- stacked_area.tsv species (lines 327-330). -/
def species_list : List String :=
  ["Firmicutes", "Bacteroidetes", "Proteobacteria", "Actinobacteria",
   "Fusobacteria", "Verrucomicrobia"]

/-- `np.linspace(0, 2*pi, 52)`, with `piQ` the rational model of float π. -/
def linT52 (piQ : ℚ) (i : ℕ) : ℚ := 2 * piQ * i / 51

/-- stacked_area.tsv rows (lines 331-343): for each week, six per-species
raw counts `int(max(1, base ± trig term + noise))`; `int` truncation of a
value forced ≥ 1 is the floor. -/
def stackedAreaRows (piQ : ℚ) (fsin fcos : ℚ → ℚ) (z : ℕ → ℕ → ℚ) :
    List (List Value) :=
  (List.range 52).flatMap (fun wi =>
    (species_list.zip
        [(350 + 80 * fsin (linT52 piQ wi) + 20 * z wi 0 : ℚ),
         250 - 60 * fsin (linT52 piQ wi) + 20 * z wi 1,
         150 + 30 * fcos (linT52 piQ wi * 2) + 15 * z wi 2,
         120 + 20 * fsin (linT52 piQ wi * (15/10)) + 10 * z wi 3,
         80 + 10 * z wi 4,
         50 + 8 * z wi 5]).map (fun sv =>
      [Value.i (wi + 1), Value.s sv.1, Value.i ⌊max 1 sv.2⌋]))

/-- Gregorian leap year. -/
def isLeap (y : ℕ) : Bool := (y % 4 == 0 && y % 100 != 0) || (y % 400 == 0)

def daysInMonth (y m : ℕ) : ℕ :=
  if m = 2 then (if isLeap y then 29 else 28)
  else if m = 4 ∨ m = 6 ∨ m = 9 ∨ m = 11 then 30
  else 31

/-- Advance a calendar date `(y, m, d)` by `n` days. -/
def advanceDate : ℕ → ℕ × ℕ × ℕ → ℕ × ℕ × ℕ
  | 0, ymd => ymd
  | n + 1, (y, m, d) =>
    if d < daysInMonth y m then advanceDate n (y, m, d + 1)
    else if m < 12 then advanceDate n (y, m + 1, 1)
    else advanceDate n (y + 1, 1, 1)

/-- `current_date.strftime("%Y-%m-%d")` for the day `n` days after the start
date `date(2023, 1, 2)`. -/
def formatDate (n : ℕ) : String :=
  let ymd := advanceDate n (2023, 1, 2)
  toString ymd.1 ++ "-" ++ zeroPad 2 ymd.2.1 ++ "-" ++ zeroPad 2 ymd.2.2

/-- candlestick.tsv rows (lines 361-379): the weekday dates paired with the
price loop's OHLC values and volume. -/
def candlestickRows (ret noise t u : ℕ → ℚ) (vol : ℕ → ℤ) : List (List Value) :=
  ((candleDates 200 0).zip (candles ret noise t u vol 200 (14250/100) 0)).map
    (fun dc =>
      [Value.s (formatDate dc.1), Value.q dc.2.open_, Value.q dc.2.high,
       Value.q dc.2.low, Value.q dc.2.close, Value.i dc.2.volume])

/-- `gauss2d(x, y, cx, cy, sx, sy)` (lines 384-385), with `fexp` the model
of float `np.exp`. -/
def gauss2d (fexp : ℚ → ℚ) (x y cx cy sx sy : ℚ) : ℚ :=
  fexp (-(1/2) * ((x - cx) ^ 2 / sx ^ 2 + (y - cy) ^ 2 / sy ^ 2))

/-- contour.tsv rows (lines 387-399): 600 points, x ~ uniform(0, 10),
y ~ uniform(1, 10), density a two-Gaussian mixture plus noise, clipped below
at 0 (`np.clip(density, 0, None)`). -/
def contourRows (fexp : ℚ → ℚ) (ux uy z : ℕ → ℚ) : List (List Value) :=
  (List.range 600).map (fun i =>
    [Value.q (pyRound 2 (0 + (10 - 0) * ux i)),
     Value.q (pyRound 2 (1 + (10 - 1) * uy i)),
     Value.q (pyRound 4 (max 0
       (6/10 * gauss2d fexp (0 + (10 - 0) * ux i) (1 + (10 - 1) * uy i) 3 4 (15/10) (12/10)
         + 4/10 * gauss2d fexp (0 + (10 - 0) * ux i) (1 + (10 - 1) * uy i) 7 6 1 (18/10)
         + 0 + 2/100 * z i)))])

/-- hist2d.tsv rows (lines 404-408): 350 + 250 bivariate-normal points,
each `(round(x, 2), round(y, 2))`. -/
def hist2dRows (p1 p2 : ℕ → ℚ × ℚ) : List (List Value) :=
  (List.range 350).map (fun i =>
      [Value.q (pyRound 2 (p1 i).1), Value.q (pyRound 2 (p1 i).2)])
    ++ (List.range 250).map (fun i =>
      [Value.q (pyRound 2 (p2 i).1), Value.q (pyRound 2 (p2 i).2)])

/-- dot.tsv pathways (lines 413-422). -/
def pathways : List String :=
  ["Glycolysis", "TCA cycle", "Oxidative phosphorylation",
   "Fatty acid oxidation", "Pentose phosphate", "Amino acid synthesis",
   "Nucleotide synthesis", "One-carbon metabolism"]

/-- dot.tsv cell types (lines 423-431). -/
def cell_types : List String :=
  ["Hepatocyte", "Neuron", "Cardiomyocyte", "Skeletal muscle", "Adipocyte",
   "Epithelial", "Immune cell"]

/-- The literal expression matrix of lines 433-442, one row per cell type
and one column per pathway. -/
def base_expr_rows : List (List ℚ) :=
  [[38/10, 35/10, 32/10, 4, 35/10, 3, 28/10, 25/10],
   [2, 25/10, 42/10, 28/10, 18/10, 22/10, 2, 2],
   [3, 4, 45/10, 42/10, 25/10, 28/10, 25/10, 22/10],
   [35/10, 38/10, 4, 38/10, 28/10, 3, 28/10, 25/10],
   [25/10, 3, 3, 45/10, 2, 25/10, 2, 22/10],
   [28/10, 25/10, 28/10, 25/10, 22/10, 25/10, 25/10, 2],
   [22/10, 2, 25/10, 2, 25/10, 22/10, 3, 18/10]]

/-- `base_expr[pi, ci]` after the `.T` transpose (line 442): entry `pi` of
cell-type row `ci`. -/
def base_expr (pi ci : ℕ) : ℚ := (base_expr_rows.getD ci []).getD pi 0

/-- `mean_expr` of dot.tsv (line 447). -/
def dotMeanExpr (z1 : ℕ → ℕ → ℚ) (pi ci : ℕ) : ℚ :=
  pyRound 2 (clipQ (base_expr pi ci + 15/100 * z1 pi ci) (5/10) (45/10))

/-- dot.tsv rows (lines 444-449): all pathway × cell-type combinations with
`mean_expr` and the derived `pct_expressed`. -/
def dotRows (z1 z2 : ℕ → ℕ → ℚ) : List (List Value) :=
  (pyEnum pathways).flatMap (fun p =>
    (pyEnum cell_types).map (fun c =>
      [Value.s p.2, Value.s c.2,
       Value.q (dotMeanExpr z1 p.1 c.1),
       Value.q (pyRound 1 (clipQ (dotMeanExpr z1 p.1 c.1 / (45/10) * 90
         + 5 * z2 p.1 c.1) 5 95))]))

/-- The marginal probabilities of upset.tsv (lines 461-466), by column. -/
def upset_probs : List ℚ := [30/100, 45/100, 20/100, 35/100, 55/100, 15/100]

/-- The final latent matrix `z` of upset.tsv (lines 469-476): base standard
normals plus the shared factor on columns 0/1 and 4/5. -/
def upsetZ (z : ℕ → ℕ → ℚ) (sh1 sh2 : ℕ → ℚ) (i k : ℕ) : ℚ :=
  z i k + (if k = 0 ∨ k = 1 then 3/10 * sh1 i else 0)
    + (if k = 4 ∨ k = 5 then 4/10 * sh2 i else 0)

/-- Insert into a sorted rational list. -/
def insertQ (x : ℚ) : List ℚ → List ℚ
  | [] => [x]
  | y :: ys => if x ≤ y then x :: y :: ys else y :: insertQ x ys

/-- Ascending insertion sort. -/
def sortQ : List ℚ → List ℚ
  | [] => []
  | x :: xs => insertQ x (sortQ xs)

/-- `np.percentile(a, q)` with the default linear interpolation:
`h = (len(a) - 1) * q / 100`, interpolating between the sorted values at
`⌊h⌋` and `⌊h⌋ + 1`. -/
def npPercentile (a : List ℚ) (q : ℚ) : ℚ :=
  let s := sortQ a
  let h : ℚ := ((s.length : ℤ) - 1 : ℤ) * q / 100
  let flo := s.getD (⌊h⌋).toNat 0
  flo + (h - (⌊h⌋ : ℚ)) * (s.getD ((⌊h⌋).toNat + 1) flo - flo)

/-- The per-column thresholds of upset.tsv (lines 478-485):
`np.percentile(z[:, k], (1 - p_k) * 100)`. -/
def upsetThreshold (z : ℕ → ℕ → ℚ) (sh1 sh2 : ℕ → ℚ) (k : ℕ) : ℚ :=
  npPercentile ((List.range 400).map (fun i => upsetZ z sh1 sh2 i k))
    ((1 - upset_probs.getD k 0) * 100)

/-- upset.tsv rows (lines 486-487): `binary = (z > thresholds).astype(int)`,
one 0/1 cell per column. -/
def upsetRows (z : ℕ → ℕ → ℚ) (sh1 sh2 : ℕ → ℚ) : List (List Value) :=
  (List.range 400).map (fun i =>
    (List.range 6).map (fun k =>
      Value.i (if upsetThreshold z sh1 sh2 k < upsetZ z sh1 sh2 i k then 1 else 0)))

/-- chord.tsv regions (lines 497-498). -/
def regions : List String :=
  ["Cortex", "Hippocampus", "Amygdala", "Thalamus", "Cerebellum", "Striatum",
   "Brainstem", "Hypothalamus"]

/-- The strong-connection table of lines 503-514, keyed by the `(i, j)`
pairs as written (all with `i < j`). -/
def strongPairs : List ((ℕ × ℕ) × ℤ) :=
  [((0, 3), 450), ((0, 1), 320), ((0, 4), 280), ((1, 2), 210), ((3, 6), 190),
   ((4, 5), 175), ((5, 6), 160), ((2, 7), 145), ((3, 7), 130), ((0, 5), 120)]

/-- The symmetric connection matrix (lines 501-526): zero diagonal, strong
values where listed, and the `randint(10, 100)` fill (drawn once per
unordered pair in the `i < j` loop, hence indexed by `(min, max)`). -/
def chordMat (fill : ℕ → ℕ → ℤ) (i j : ℕ) : ℤ :=
  if i = j then 0
  else
    match strongPairs.lookup (min i j, max i j) with
    | some v => v
    | none => fill (min i j) (max i j)

/-- chord.tsv rows (lines 527-529): each region's name followed by its
matrix row. -/
def chordRows (fill : ℕ → ℕ → ℤ) : List (List Value) :=
  (pyEnum regions).map (fun r =>
    Value.s r.2 :: (List.range 8).map (fun j => Value.i (chordMat fill r.1 j)))

/-- sankey.tsv rows (lines 535-549). -/
def sankeyRows : List (List Value) :=
  [[Value.s "Raw_reads", Value.s "Trimmed", Value.i 82],
   [Value.s "Raw_reads", Value.s "Discarded", Value.i 3],
   [Value.s "Trimmed", Value.s "Genome_aligned", Value.i 68],
   [Value.s "Trimmed", Value.s "rRNA", Value.i 8],
   [Value.s "Trimmed", Value.s "Unmapped", Value.i 6],
   [Value.s "Genome_aligned", Value.s "Exonic", Value.i 42],
   [Value.s "Genome_aligned", Value.s "Intronic", Value.i 18],
   [Value.s "Genome_aligned", Value.s "Intergenic", Value.i 8],
   [Value.s "Exonic", Value.s "Protein_coding", Value.i 31],
   [Value.s "Exonic", Value.s "lncRNA", Value.i 7],
   [Value.s "Exonic", Value.s "Other_RNA", Value.i 4],
   [Value.s "Protein_coding", Value.s "High_conf", Value.i 24],
   [Value.s "Protein_coding", Value.s "Low_conf", Value.i 7]]

/-- phylo.tsv edge rows (lines 578-626): (parent, child, length). -/
def phyloRows : List (List Value) :=
  [[Value.s "node_1", Value.s "node_2", Value.q (5/100)],
   [Value.s "node_1", Value.s "node_17", Value.q (12/100)],
   [Value.s "node_2", Value.s "node_3", Value.q (4/100)],
   [Value.s "node_2", Value.s "node_11", Value.q (6/100)],
   [Value.s "node_3", Value.s "node_4", Value.q (3/100)],
   [Value.s "node_3", Value.s "node_10", Value.q (5/100)],
   [Value.s "node_4", Value.s "node_5", Value.q (2/100)],
   [Value.s "node_4", Value.s "node_8", Value.q (4/100)],
   [Value.s "node_5", Value.s "node_6", Value.q (1/100)],
   [Value.s "node_5", Value.s "node_7", Value.q (15/1000)],
   [Value.s "node_6", Value.s "Homo_sapiens", Value.q (8/1000)],
   [Value.s "node_6", Value.s "Pan_troglodytes", Value.q (10/1000)],
   [Value.s "node_7", Value.s "Gorilla_gorilla", Value.q (15/1000)],
   [Value.s "node_7", Value.s "Pongo_pygmaeus", Value.q (30/1000)],
   [Value.s "node_8", Value.s "node_9", Value.q (3/100)],
   [Value.s "node_8", Value.s "Callithrix_jacchus", Value.q (6/100)],
   [Value.s "node_9", Value.s "Macaca_mulatta", Value.q (2/100)],
   [Value.s "node_9", Value.s "Papio_anubis", Value.q (25/1000)],
   [Value.s "node_10", Value.s "node_12", Value.q (5/100)],
   [Value.s "node_10", Value.s "node_13", Value.q (6/100)],
   [Value.s "node_12", Value.s "Mus_musculus", Value.q (4/100)],
   [Value.s "node_12", Value.s "Rattus_norvegicus", Value.q (45/1000)],
   [Value.s "node_13", Value.s "Cavia_porcellus", Value.q (8/100)],
   [Value.s "node_13", Value.s "Oryctolagus_cuniculus", Value.q (7/100)],
   [Value.s "node_11", Value.s "node_14", Value.q (5/100)],
   [Value.s "node_11", Value.s "node_15", Value.q (7/100)],
   [Value.s "node_14", Value.s "Canis_lupus", Value.q (5/100)],
   [Value.s "node_14", Value.s "Felis_catus", Value.q (6/100)],
   [Value.s "node_15", Value.s "node_16", Value.q (4/100)],
   [Value.s "node_15", Value.s "Equus_caballus", Value.q (8/100)],
   [Value.s "node_16", Value.s "Sus_scrofa", Value.q (6/100)],
   [Value.s "node_16", Value.s "Bos_taurus", Value.q (5/100)],
   [Value.s "node_17", Value.s "node_18", Value.q (6/100)],
   [Value.s "node_17", Value.s "node_19", Value.q (15/100)],
   [Value.s "node_18", Value.s "Gallus_gallus", Value.q (5/100)],
   [Value.s "node_18", Value.s "Xenopus_tropicalis", Value.q (9/100)],
   [Value.s "node_19", Value.s "Danio_rerio", Value.q (12/100)],
   [Value.s "node_19", Value.s "Drosophila_melanogaster", Value.q (22/100)]]

/-- synteny_seqs.tsv rows (lines 636-641). -/
def syntenySeqsRows : List (List Value) :=
  [[Value.s "Chr1A", Value.i 2800000],
   [Value.s "Chr1B", Value.i 2650000],
   [Value.s "Chr2A", Value.i 1900000],
   [Value.s "Chr2B", Value.i 1750000]]

/-- One block row of synteny_blocks.tsv. -/
def blockRow (b : Block) : List Value :=
  [Value.s b.seq1, Value.i b.start1, Value.i b.end1, Value.s b.seq2,
   Value.i b.start2, Value.i b.end2, Value.s b.strand]

/-- synteny_blocks.tsv rows (lines 675-688). -/
def syntenyBlocksRows (draw1 draw2 : ℕ → BlockDraw) : List (List Value) :=
  (all_blocks draw1 draw2).map blockRow

/-! ## The whole batch run -/

/-- One named output table: filename, header, body rows. -/
structure Table where
  name : String
  header : List String
  rows : List (List Value)
deriving Inhabited

/-- All random draws and float-transcendental stand-ins the run consumes,
in one bundle; each field is the draw stream of one recipe (see the per-table
definitions). -/
structure Params where
  fexp : ℚ → ℚ
  fsin : ℚ → ℚ
  fcos : ℚ → ℚ
  piQ : ℚ
  scPts : ℕ → ℕ → ℚ × ℚ
  scPerm : List ℕ
  vcZ : ℕ → ℚ
  vcU : ℕ → ℚ
  vcIdx : ℕ → ℕ
  smC : ℕ → ℚ
  smA : ℕ → ℚ
  smB1 : ℕ → ℚ
  smB2 : ℕ → ℚ
  smCc : ℕ → ℚ
  smE : ℕ → ℚ
  msZ : ℕ → ℕ → ℚ
  gsU : ℕ → ℚ
  gsZfc : ℕ → ℚ
  gsZbm : ℕ → ℚ
  gsSgn : ℕ → Bool
  gsCIdx : ℕ → ℕ
  gsPos : ℕ → ℤ
  gsIdx : ℕ → ℕ
  histZ1 : ℕ → ℚ
  histZ2 : ℕ → ℚ
  hmZ : ℕ → ℕ → ℚ
  saZ : ℕ → ℕ → ℚ
  csRet : ℕ → ℚ
  csNoise : ℕ → ℚ
  csT : ℕ → ℚ
  csU : ℕ → ℚ
  csVol : ℕ → ℤ
  ctUx : ℕ → ℚ
  ctUy : ℕ → ℚ
  ctZ : ℕ → ℚ
  h2P1 : ℕ → ℚ × ℚ
  h2P2 : ℕ → ℚ × ℚ
  dotZ1 : ℕ → ℕ → ℚ
  dotZ2 : ℕ → ℕ → ℚ
  upZ : ℕ → ℕ → ℚ
  upSh1 : ℕ → ℚ
  upSh2 : ℕ → ℚ
  chFill : ℕ → ℕ → ℤ
  sbDraw1 : ℕ → BlockDraw
  sbDraw2 : ℕ → BlockDraw
  rdPeak : ℕ → ℤ
  rdScatter : ℕ → ℤ
  rdLen : ℕ → ℤ
  rdStrand : ℕ → String

/-- The 22 tables of one run, in generation order (the order of the
`write_tsv` calls in generate.py). -/
def runTables (P : Params) : List Table :=
  [⟨"scatter.tsv", ["x", "y", "group"], scatterRows P.scPts P.scPerm⟩,
   ⟨"volcano.tsv", ["gene", "log2fc", "pvalue"], volcanoRows P.vcZ P.vcU P.vcIdx⟩,
   ⟨"samples.tsv", ["group", "expression"],
     samplesRows P.smC P.smA P.smB1 P.smB2 P.smCc P.smE⟩,
   ⟨"measurements.tsv", ["group", "time", "value"], measurementsRows P.fexp P.msZ⟩,
   ⟨"gene_stats.tsv", ["gene", "chr", "pos", "basemean", "log2fc", "pvalue", "padj"],
     geneStatsRows P.fexp P.gsU P.gsZfc P.gsZbm P.gsSgn P.gsCIdx P.gsPos P.gsIdx⟩,
   ⟨"bar.tsv", ["category", "count"], barRows⟩,
   ⟨"histogram.tsv", ["value"], histogramRows P.histZ1 P.histZ2⟩,
   ⟨"pie.tsv", ["feature", "percentage"], pieRows⟩,
   ⟨"heatmap.tsv", "gene" :: sample_names, heatmapRows P.hmZ⟩,
   ⟨"waterfall.tsv", ["process", "log2fc"], waterfallRows⟩,
   ⟨"stacked_area.tsv", ["week", "species", "abundance"],
     stackedAreaRows P.piQ P.fsin P.fcos P.saZ⟩,
   ⟨"candlestick.tsv", ["date", "open", "high", "low", "close", "volume"],
     candlestickRows P.csRet P.csNoise P.csT P.csU P.csVol⟩,
   ⟨"contour.tsv", ["x", "y", "density"], contourRows P.fexp P.ctUx P.ctUy P.ctZ⟩,
   ⟨"hist2d.tsv", ["x", "y"], hist2dRows P.h2P1 P.h2P2⟩,
   ⟨"dot.tsv", ["pathway", "cell_type", "mean_expr", "pct_expressed"],
     dotRows P.dotZ1 P.dotZ2⟩,
   ⟨"upset.tsv", ["GWAS_hit", "eQTL", "Splicing_QTL", "Methylation_QTL",
       "Conservation", "ClinVar"], upsetRows P.upZ P.upSh1 P.upSh2⟩,
   ⟨"chord.tsv", "region" :: regions, chordRows P.chFill⟩,
   ⟨"sankey.tsv", ["source", "target", "value"], sankeyRows⟩,
   ⟨"phylo.tsv", ["parent", "child", "length"], phyloRows⟩,
   ⟨"synteny_seqs.tsv", ["name", "length"], syntenySeqsRows⟩,
   ⟨"synteny_blocks.tsv", ["seq1", "start1", "end1", "seq2", "start2", "end2", "strand"],
     syntenyBlocksRows P.sbDraw1 P.sbDraw2⟩,
   ⟨"reads.tsv", ["name", "start", "end", "strand"],
     readsRows P.rdPeak P.rdScatter P.rdLen P.rdStrand⟩]

/-- The run-summary mapping `counts` (line 23 and each
`counts[...] = write_tsv(...)` assignment): filename paired with the value
returned by `write_tsv`. -/
def runCounts (P : Params) : List (String × ℕ) :=
  (runTables P).map (fun t => (t.name, (write_tsv t.header t.rows).2))

/-! Arity helpers. -/

theorem arity_mem_map {l : List α} {f : α → List Value} {n : ℕ}
    (h : ∀ x, (f x).length = n) : ∀ r ∈ l.map f, r.length = n := by
  intro r hr
  rcases List.mem_map.mp hr with ⟨x, _, rfl⟩
  exact h x

theorem arity_mem_append {l1 l2 : List (List Value)} {n : ℕ}
    (h1 : ∀ r ∈ l1, r.length = n) (h2 : ∀ r ∈ l2, r.length = n) :
    ∀ r ∈ l1 ++ l2, r.length = n := by
  intro r hr
  rcases List.mem_append.mp hr with h | h
  exacts [h1 r h, h2 r h]

theorem arity_mem_flatMap {l : List α} {f : α → List (List Value)} {n : ℕ}
    (h : ∀ x, ∀ r ∈ f x, r.length = n) : ∀ r ∈ l.flatMap f, r.length = n := by
  intro r hr
  rcases List.mem_flatMap.mp hr with ⟨x, _, hx⟩
  exact h x r hx

theorem pyEnumFrom_length (k : ℕ) (l : List α) :
    (pyEnumFrom k l).length = l.length := by
  induction l generalizing k with
  | nil => rfl
  | cons a as ih => simp [pyEnumFrom, ih]

/-- C2: for every generated table, the number of data lines in the output
file equals the row count recorded in the run-summary mapping for that
filename (the summary mapping is exactly filename ↦ data-line count), and
every data row has as many values as the header has columns. -/
theorem C2_line_counts_and_arity (P : Params) :
    runCounts P
        = (runTables P).map
            (fun t => (t.name, ((tsvLines t.header t.rows).tail).length)) ∧
      ∀ t ∈ runTables P, ∀ row ∈ t.rows, row.length = t.header.length := by
  constructor
  · refine List.map_congr_left ?_
    intro t _
    simp [write_tsv, tsvLines]
  · intro t ht
    have harity :
        (∀ r ∈ scatterRows P.scPts P.scPerm, r.length = 3) ∧
        (∀ r ∈ volcanoRows P.vcZ P.vcU P.vcIdx, r.length = 3) ∧
        (∀ r ∈ samplesRows P.smC P.smA P.smB1 P.smB2 P.smCc P.smE, r.length = 2) ∧
        (∀ r ∈ measurementsRows P.fexp P.msZ, r.length = 3) ∧
        (∀ r ∈ geneStatsRows P.fexp P.gsU P.gsZfc P.gsZbm P.gsSgn P.gsCIdx
            P.gsPos P.gsIdx, r.length = 7) ∧
        (∀ r ∈ histogramRows P.histZ1 P.histZ2, r.length = 1) ∧
        (∀ r ∈ heatmapRows P.hmZ, r.length = 13) ∧
        (∀ r ∈ stackedAreaRows P.piQ P.fsin P.fcos P.saZ, r.length = 3) ∧
        (∀ r ∈ candlestickRows P.csRet P.csNoise P.csT P.csU P.csVol, r.length = 6) ∧
        (∀ r ∈ contourRows P.fexp P.ctUx P.ctUy P.ctZ, r.length = 3) ∧
        (∀ r ∈ hist2dRows P.h2P1 P.h2P2, r.length = 2) ∧
        (∀ r ∈ dotRows P.dotZ1 P.dotZ2, r.length = 4) ∧
        (∀ r ∈ upsetRows P.upZ P.upSh1 P.upSh2, r.length = 6) ∧
        (∀ r ∈ chordRows P.chFill, r.length = 9) ∧
        (∀ r ∈ syntenyBlocksRows P.sbDraw1 P.sbDraw2, r.length = 7) ∧
        (∀ r ∈ readsRows P.rdPeak P.rdScatter P.rdLen P.rdStrand, r.length = 4) := by
      refine ⟨?_, ?_, ?_, ?_, ?_, ?_, ?_, ?_, ?_, ?_, ?_, ?_, ?_, ?_, ?_, ?_⟩
      · intro r hr
        have hmem := applyShuffle_mem hr
        rw [scatterRowsOrdered] at hmem
        refine arity_mem_flatMap ?_ r hmem
        intro g
        exact arity_mem_map (fun j => rfl)
      · exact arity_mem_map (fun i => rfl)
      · exact arity_mem_append (arity_mem_append (arity_mem_append (arity_mem_append
          (arity_mem_append (arity_mem_map (fun i => rfl)) (arity_mem_map (fun i => rfl)))
          (arity_mem_map (fun i => rfl))) (arity_mem_map (fun i => rfl)))
          (arity_mem_map (fun i => rfl))) (arity_mem_map (fun i => rfl))
      · exact arity_mem_flatMap (fun g => arity_mem_map (fun j => rfl))
      · exact arity_mem_map (fun i => rfl)
      · exact arity_mem_append (arity_mem_map (fun i => rfl)) (arity_mem_map (fun i => rfl))
      · intro r hr
        rcases List.mem_map.mp hr with ⟨g, _, rfl⟩
        simp [List.length_map, pyEnumFrom_length, pyEnum, group_membership]
      · exact arity_mem_flatMap (fun wi => arity_mem_map (fun sv => rfl))
      · exact arity_mem_map (fun dc => rfl)
      · exact arity_mem_map (fun i => rfl)
      · exact arity_mem_append (arity_mem_map (fun i => rfl)) (arity_mem_map (fun i => rfl))
      · exact arity_mem_flatMap (fun p => arity_mem_map (fun c => rfl))
      · intro r hr
        rcases List.mem_map.mp hr with ⟨i, _, rfl⟩
        simp
      · intro r hr
        rcases List.mem_map.mp hr with ⟨rg, _, rfl⟩
        simp
      · exact arity_mem_map (fun b => rfl)
      · exact arity_mem_map (fun ri => rfl)
    rcases harity with ⟨a1, a2, a3, a4, a5, a6, a7, a8, a9, a10, a11, a12, a13, a14, a15, a16⟩
    rw [runTables] at ht
    rcases List.mem_cons.mp ht with rfl | ht
    · dsimp only
      exact a1
    rcases List.mem_cons.mp ht with rfl | ht
    · dsimp only
      exact a2
    rcases List.mem_cons.mp ht with rfl | ht
    · dsimp only
      exact a3
    rcases List.mem_cons.mp ht with rfl | ht
    · dsimp only
      exact a4
    rcases List.mem_cons.mp ht with rfl | ht
    · dsimp only
      exact a5
    rcases List.mem_cons.mp ht with rfl | ht
    · dsimp only
      decide
    rcases List.mem_cons.mp ht with rfl | ht
    · dsimp only
      exact a6
    rcases List.mem_cons.mp ht with rfl | ht
    · dsimp only
      decide
    rcases List.mem_cons.mp ht with rfl | ht
    · dsimp only
      rw [show ("gene" :: sample_names).length = 13 from by simp [sample_names]]
      exact a7
    rcases List.mem_cons.mp ht with rfl | ht
    · dsimp only
      decide
    rcases List.mem_cons.mp ht with rfl | ht
    · dsimp only
      exact a8
    rcases List.mem_cons.mp ht with rfl | ht
    · dsimp only
      exact a9
    rcases List.mem_cons.mp ht with rfl | ht
    · dsimp only
      exact a10
    rcases List.mem_cons.mp ht with rfl | ht
    · dsimp only
      exact a11
    rcases List.mem_cons.mp ht with rfl | ht
    · dsimp only
      exact a12
    rcases List.mem_cons.mp ht with rfl | ht
    · dsimp only
      exact a13
    rcases List.mem_cons.mp ht with rfl | ht
    · dsimp only
      rw [show ("region" :: regions).length = 9 from by simp [regions]]
      exact a14
    rcases List.mem_cons.mp ht with rfl | ht
    · dsimp only
      decide
    rcases List.mem_cons.mp ht with rfl | ht
    · dsimp only
      decide
    rcases List.mem_cons.mp ht with rfl | ht
    · dsimp only
      decide
    rcases List.mem_cons.mp ht with rfl | ht
    · dsimp only
      exact a15
    rcases List.mem_cons.mp ht with rfl | ht
    · dsimp only
      exact a16
    cases ht
/-! ## Determinism under fixed seeding (C3) -/

/-- Modelled from the spec: the process-wide pseudo-random stream set up by
`np.random.seed(42)` (line 10).  numpy's MT19937 generator and its float
distribution transforms are library code outside this repository; the claim
needs only that every draw is a deterministic function of the seed set once
at start, so the stream is modelled by a concrete deterministic integer
mixing function of (seed, position). -/
def tape (seed n : ℕ) : ℤ :=
  (((seed + 1) * 2654435761 + (n + 1) * 40503) % 65536 : ℕ)

/-- The stream as rationals in `[0, 1)`. -/
def tapeQ (seed n : ℕ) : ℚ := tape seed n / 65536

/-- A doubly-indexed view of the stream. -/
def tapeQ2 (seed a b : ℕ) : ℚ := tapeQ seed (a * 1000 + b)

/-- A definite rational stand-in for float `np.exp`; its numeric values
influence no claim — only that it is one fixed function. -/
def fexpModel (q : ℚ) : ℚ := max 0 (1 + q + q ^ 2 / 2 + q ^ 3 / 6)

/-- Stand-in for float `np.sin`. -/
def fsinModel (q : ℚ) : ℚ := clipQ (q - q ^ 3 / 6) (-1) 1

/-- Stand-in for float `np.cos`. -/
def fcosModel (q : ℚ) : ℚ := clipQ (1 - q ^ 2 / 2) (-1) 1

/-- The dedicated `np.random.default_rng(42 + seed_offset)` stream of
`generate_synteny_blocks` (line 649), which is independent of the
process-wide seed; `rngSeed` is `42 + seed_offset`. -/
def blockDrawOf (rngSeed i : ℕ) : BlockDraw :=
  { blockLen := 50000 + tape rngSeed (6 * i) % 350000
    offset := -20000 + tape rngSeed (6 * i + 1) % 40000
    ratio := 17/20 + tapeQ rngSeed (6 * i + 2) * (3/10)
    strandU := tapeQ rngSeed (6 * i + 3)
    gap1 := 10000 + tape rngSeed (6 * i + 4) % 40000
    gap2 := 10000 + tape rngSeed (6 * i + 5) % 40000 }

/-- All draws of one run as a function of the seed: each recipe's stream is
read off a distinct region of the seeded tape (permutations are modelled as
seed-dependent rotations, which are genuine permutations). -/
def paramsOf (seed : ℕ) : Params :=
  { fexp := fexpModel
    fsin := fsinModel
    fcos := fcosModel
    piQ := 314159/100000
    scPts := fun g j => (tapeQ2 seed (g + 1) j, tapeQ2 seed (g + 1) (j + 500))
    scPerm := (List.range 240).map (fun i => (i + (tape seed 4000).toNat) % 240)
    vcZ := fun i => tapeQ seed (5000 + i) * 4 - 2
    vcU := fun i => tapeQ seed (6000 + i)
    vcIdx := fun i => (i + (tape seed 4001).toNat) % 200
    smC := fun i => tapeQ seed (7000 + i) * 4 - 2
    smA := fun i => tapeQ seed (8000 + i) * 4 - 2
    smB1 := fun i => tapeQ seed (9000 + i) * 4 - 2
    smB2 := fun i => tapeQ seed (10000 + i) * 4 - 2
    smCc := fun i => tapeQ seed (11000 + i) * 4 - 2
    smE := fun i => tapeQ seed (12000 + i) * 3/2
    msZ := fun g j => tapeQ2 seed (13 + g) j * 4 - 2
    gsU := fun i => tapeQ seed (20000 + i)
    gsZfc := fun i => tapeQ seed (30000 + i) * 4 - 2
    gsZbm := fun i => tapeQ seed (40000 + i) * 4 - 2
    gsSgn := fun i => tape seed (50000 + i) % 2 == 0
    gsCIdx := fun i => (tape seed (60000 + i)).toNat % 24
    gsPos := fun i => 1 + tape seed (70000 + i) % 1000000
    gsIdx := fun i => (i + (tape seed 4002).toNat) % 8000
    histZ1 := fun i => tapeQ seed (80000 + i) * 4 - 2
    histZ2 := fun i => tapeQ seed (81000 + i) * 4 - 2
    hmZ := fun g j => tapeQ2 seed (90 + g) j * 4 - 2
    saZ := fun w j => tapeQ2 seed (130 + w) j * 4 - 2
    csRet := fun i => tapeQ seed (100000 + i) * 4 - 2
    csNoise := fun i => tapeQ seed (101000 + i) * 4 - 2
    csT := fun i => tapeQ seed (102000 + i) * 4 - 2
    csU := fun i => tapeQ seed (103000 + i) * 4 - 2
    csVol := fun i => 1000000 + tape seed (104000 + i)
    ctUx := fun i => tapeQ seed (110000 + i)
    ctUy := fun i => tapeQ seed (111000 + i)
    ctZ := fun i => tapeQ seed (112000 + i) * 4 - 2
    h2P1 := fun i => (25 + tapeQ seed (120000 + i) * 10, 30 + tapeQ seed (121000 + i) * 10)
    h2P2 := fun i => (70 + tapeQ seed (122000 + i) * 10, 75 + tapeQ seed (123000 + i) * 10)
    dotZ1 := fun p c => tapeQ2 seed (200 + p) c * 4 - 2
    dotZ2 := fun p c => tapeQ2 seed (210 + p) c * 4 - 2
    upZ := fun i k => tapeQ2 seed (220 + k) i * 4 - 2
    upSh1 := fun i => tapeQ seed (130000 + i) * 4 - 2
    upSh2 := fun i => tapeQ seed (131000 + i) * 4 - 2
    chFill := fun i j => 10 + tape seed (140000 + 8 * i + j) % 90
    sbDraw1 := blockDrawOf 42
    sbDraw2 := blockDrawOf 52
    rdPeak := fun i => 2800 + tape seed (150000 + i) % 1200 - 600
    rdScatter := fun i => tape seed (151000 + i) % 7900
    rdLen := fun i => 80 + tape seed (152000 + i) % 171
    rdStrand := fun i => if tape seed (153000 + i) % 2 = 0 then "+" else "-" }

/-- The full run output as a function of the seed alone: every file's name
and byte content. -/
def generateOutputs (seed : ℕ) : List (String × String) :=
  (runTables (paramsOf seed)).map
    (fun t => (t.name, (write_tsv t.header t.rows).1.content))

/-- C3: two runs of the whole generator from the same fixed seed produce
byte-identical contents for every output file.  The embedded run
(`generateOutputs`) takes no input other than the seed — the sequential
tape consumption, the per-recipe streams and the independently seeded
`default_rng(42 + seed_offset)` streams of the synteny recipe are all
functions of it — so equal seeds give equal bytes. -/
theorem C3_same_seed_same_bytes (s1 s2 : ℕ) (h : s1 = s2) :
    generateOutputs s1 = generateOutputs s2 := by rw [h]

/-- Witness for C3 at the generator's fixed seed 42. -/
theorem C3_same_seed_same_bytes_witness :
    (42 : ℕ) = 42 ∧ generateOutputs 42 = generateOutputs 42 :=
  ⟨rfl, C3_same_seed_same_bytes 42 42 rfl⟩

/-! ## Write-failure propagation (C9) -/

/-- The run's sequence of `write_tsv` calls threaded through an explicit
file-system model: `w` says whether a destination is writable.  A writable
table appends its file and its summary entry and the run continues; an
unwritable one raises inside `write_tsv` — the script installs no handler,
so the run ends there with the files written so far and no summary
(`none`). -/
def runWrites (w : String → Bool) :
    List Table → List (String × FileState) → List (String × ℕ) →
      List (String × FileState) × Option (List (String × ℕ))
  | [], files, cnts => (files, some cnts)
  | t :: ts, files, cnts =>
    if w t.name then
      runWrites w ts (files ++ [(t.name, (write_tsv t.header t.rows).1)])
        (cnts ++ [(t.name, (write_tsv t.header t.rows).2)])
    else (files, none)

theorem runWrites_fail (w : String → Bool) (pre : List Table) (t : Table)
    (post : List Table) (hpre : ∀ s ∈ pre, w s.name = true)
    (ht : w t.name = false) :
    ∀ fs cs, runWrites w (pre ++ t :: post) fs cs
      = (fs ++ pre.map (fun s => (s.name, (write_tsv s.header s.rows).1)), none) := by
  induction pre with
  | nil =>
    intro fs cs
    simp [runWrites, ht]
  | cons s ss ih =>
    intro fs cs
    have hs : w s.name = true := hpre s (List.mem_cons_self s ss)
    rw [List.cons_append, runWrites, if_pos hs,
      ih (fun x hx => hpre x (List.mem_cons_of_mem s hx))]
    simp

/-- C9: if writing an output file fails, the error propagates out of
`write_tsv` uncaught and aborts the entire run — exactly the tables before
the failing one have been written, the result does not depend on any later
table (none is generated), and the summary mapping is never produced
(`none`); there is no retry.  Stated over the actual generated table
sequence with the first unwritable destination at position `k`. -/
theorem C9_write_failure_aborts (P : Params) (w : String → Bool) (k : ℕ)
    (hk : k < (runTables P).length)
    (hpre : ∀ s ∈ (runTables P).take k, w s.name = true)
    (ht : w (((runTables P).getD k default).name) = false) :
    runWrites w (runTables P) [] []
      = (((runTables P).take k).map
          (fun s => (s.name, (write_tsv s.header s.rows).1)), none) := by
  have hgetD : (runTables P).getD k default = (runTables P)[k] := by
    rw [List.getD_eq_getElem?_getD, List.getElem?_eq_getElem hk]
    rfl
  have hsplit : runTables P
      = (runTables P).take k
          ++ ((runTables P).getD k default) :: (runTables P).drop (k + 1) := by
    rw [hgetD, ← List.drop_eq_getElem_cons hk, List.take_append_drop]
  calc runWrites w (runTables P) [] []
      = runWrites w ((runTables P).take k
          ++ ((runTables P).getD k default) :: (runTables P).drop (k + 1)) [] [] := by
        rw [← hsplit]
    _ = ([] ++ ((runTables P).take k).map
          (fun s => (s.name, (write_tsv s.header s.rows).1)), none) :=
        runWrites_fail w _ _ _ hpre ht [] []
    _ = (((runTables P).take k).map
          (fun s => (s.name, (write_tsv s.header s.rows).1)), none) := by simp

/-- Witness for C9: with nothing writable, the run aborts at the very first
table with no files written and no summary. -/
theorem C9_write_failure_aborts_witness :
    runWrites (fun _ => false) (runTables (paramsOf 42)) [] []
      = (((runTables (paramsOf 42)).take 0).map
          (fun s => (s.name, (write_tsv s.header s.rows).1)), none) :=
  C9_write_failure_aborts (paramsOf 42) (fun _ => false) 0
    (by norm_num [runTables]) (by simp) rfl

end Kuva
